import Mathlib

/-!
Trust resolution and Megolm decryption (`crypto` package)

A shallow embedding of `crypto/cross_sign_validation.go` and
`crypto/decryptmegolm.go`.

* Go functions returning `(value, error)` are embedded as functions returning a
  pair `value × Option Error`; `none` is the `nil` error.
* A Go `map[K]V` is embedded as a function `K → Option V` (`none`: key absent; a
  `nil` map is the everywhere-`none` function).
* Every operation on a collaborator (the crypto store, the own-key cache, a group
  session, the wedge diagnostic) is appended to the call log of the `World`, which
  also carries the message-index ledger of the store.
* Calls to `mach.Log` do not influence control flow or results and are left out.
-/

namespace Crypto

/-! ## Identifiers -/

abbrev UserID := String
abbrev Ed25519 := String
/-- In Go, `id.SigningKey` is an alias of `id.Ed25519`. -/
abbrev SigningKey := Ed25519
abbrev SenderKey := String
abbrev SessionID := String
abbrev EventID := String
abbrev RoomID := String

/-- Modelled from the spec: the type `id.CrossSigningUsage` and its three constants are
declared outside the embedded files; the spec names the usages master, self-signing and
user-signing. -/
inductive CrossSigningUsage where
  | XSUsageMaster
  | XSUsageSelfSigning
  | XSUsageUserSigning
  deriving DecidableEq, Repr

/-- Modelled from the spec: the enumeration `id.TrustState` is declared outside the
embedded files; the spec names five states. The Go type is an integer type, so a device
record may carry a further value, which `TrustStateOther` stands for. -/
inductive TrustState where
  | TrustStateUnset
  | TrustStateCrossSigned
  | TrustStateCrossSignedTrusted
  | TrustStateVerified
  | TrustStateBlacklisted
  | TrustStateOther (code : Nat)
  deriving DecidableEq, Repr

/-- Go `error` values: the three package-level values of `decryptmegolm.go`, the result
of `errors.Wrap`, and errors produced by collaborators. -/
inductive Error where
  | IncorrectEncryptedContentType
  | NoSessionFound
  | DuplicateMessageIndex
  | Wrap (err : Error) (message : String)
  | External (message : String)
  deriving DecidableEq, Repr

/-- The fields of `DeviceIdentity` read by the trust resolver. -/
structure DeviceIdentity where
  UserID : UserID
  SigningKey : SigningKey
  Trust : TrustState
  deriving DecidableEq, Repr

/-- The value behind the pointer returned by `GetOwnCrossSigningPublicKeys`. -/
structure CrossSigningPublicKeysCache where
  MasterKey : Ed25519
  SelfSigningKey : Ed25519
  UserSigningKey : Ed25519
  deriving DecidableEq, Repr

/-! ## Group sessions, events and the ledger -/

/-- An inbound group session, seen through its `Decrypt` method, which returns
`(plaintext, messageIndex, err)`. -/
structure InboundGroupSession where
  Decrypt : String → String × Nat × Option Error

/-- The fields of `*event.EncryptedEventContent` read by the decryption pipeline. -/
structure EncryptedEventContent where
  SenderKey : SenderKey
  SessionID : SessionID
  MegolmCiphertext : String
  deriving DecidableEq, Repr

/-- The dynamic value of `Content.Parsed`: nothing, an `*event.EncryptedEventContent`, or
a value of some other content type. -/
inductive ParsedContent where
  | NotParsed
  | Encrypted (content : EncryptedEventContent)
  | OtherContent (kind : String)
  deriving DecidableEq, Repr

/-- The type `event.Content`: the raw JSON together with the parsed value. -/
structure Content where
  VeryRaw : String
  Parsed : ParsedContent
  deriving DecidableEq, Repr

/-- The fields of `event.Event` that `DecryptMegolmEvent` reads or sets. -/
structure Event where
  Sender : UserID
  Type_ : String
  Timestamp : Int
  ID : EventID
  RoomID : RoomID
  Content : Content
  Unsigned : String
  deriving DecidableEq, Repr

/-- The struct `MegolmEvent` of `decryptmegolm.go`. -/
structure MegolmEvent where
  Type_ : String
  Content : Content
  deriving DecidableEq, Repr

/-- Key of the message-index ledger. -/
structure MessageIndexKey where
  SenderKey : SenderKey
  SessionID : SessionID
  Index : Nat
  deriving DecidableEq, Repr

/-- Value of the message-index ledger: the event that first claimed the index. -/
structure MessageIndexValue where
  EventID : EventID
  Timestamp : Int
  deriving DecidableEq, Repr

abbrev Ledger := List (MessageIndexKey × MessageIndexValue)

/-- Operations on collaborators, as recorded in the call log. -/
inductive Call where
  | GetOwnCrossSigningPublicKeys
  | GetCrossSigningKeys (userID : UserID)
  | IsKeySignedBy (userID : UserID) (key : Ed25519) (signerID : UserID) (signerKey : Ed25519)
  | GetSignaturesForKeyBy (userID : UserID) (key : Ed25519) (signerID : UserID)
  | GetGroupSession (roomID : RoomID) (senderKey : SenderKey) (sessionID : SessionID)
  | checkIfWedged (eventID : EventID)
  | Decrypt (ciphertext : String)
  | ValidateMessageIndex (senderKey : SenderKey) (sessionID : SessionID) (eventID : EventID)
      (index : Nat) (timestamp : Int)
  deriving DecidableEq, Repr

/-- The mutable surroundings of the machine: the log of collaborator calls made so far
(oldest first) and the message-index ledger held by the store. -/
structure World where
  calls : List Call
  ledger : Ledger
  deriving DecidableEq, Repr

/-- Append one call to the log. -/
def World.record (w : World) (c : Call) : World :=
  { w with calls := w.calls ++ [c] }

/-- The read operations of the crypto store used by the embedded files, each returning
the Go pair `(value, err)`. -/
structure Store where
  GetCrossSigningKeys : UserID → (CrossSigningUsage → Option Ed25519) × Option Error
  IsKeySignedBy : UserID → Ed25519 → UserID → Ed25519 → Bool × Option Error
  GetSignaturesForKeyBy : UserID → Ed25519 → UserID → (Ed25519 → Option String) × Option Error
  GetGroupSession : RoomID → SenderKey → SessionID → Option InboundGroupSession × Option Error

/-- The field `mach.Client`, of which only the user ID is read. -/
structure Client where
  UserID : UserID
  deriving DecidableEq, Repr

/-- The machine. `GetOwnCrossSigningPublicKeys`, `Unmarshal`, `ParseRaw` and
`IsUnsupportedContentType` are defined outside the embedded files and are taken as
parameters: the pointer returned by `mach.GetOwnCrossSigningPublicKeys()` (`none` is
`nil`); the pointer left in `megolmEvt` by `json.Unmarshal(plaintext, &megolmEvt)`
together with its error; the content left by `Content.ParseRaw` together with its error;
and `event.IsUnsupportedContentType`. -/
structure OlmMachine where
  Client : Client
  CryptoStore : Store
  store : Store
  GetOwnCrossSigningPublicKeys : Option CrossSigningPublicKeysCache
  Unmarshal : String → Option MegolmEvent × Option Error
  ParseRaw : Content → String → Content × Option Error
  IsUnsupportedContentType : Error → Bool

/-! ## `cross_sign_validation.go` -/

/-- `OlmMachine.IsKeyCrossSigned`. -/
def IsKeyCrossSigned (mach : OlmMachine) (userID : UserID) (deviceSigningKey : SigningKey)
    (w : World) : Bool × World :=
  let w1 := w.record (Call.GetCrossSigningKeys userID)
  let r := mach.CryptoStore.GetCrossSigningKeys userID
  match r.2 with
  | some _ => (false, w1)
  | none =>
    match r.1 CrossSigningUsage.XSUsageMaster with
    | none => (false, w1)
    | some theirMSK =>
      match r.1 CrossSigningUsage.XSUsageSelfSigning with
      | none => (false, w1)
      | some theirSSK =>
        let w2 := w1.record (Call.IsKeySignedBy userID theirSSK userID theirMSK)
        let s := mach.CryptoStore.IsKeySignedBy userID theirSSK userID theirMSK
        match s.2 with
        | some _ => (false, w2)
        | none =>
          if !s.1 then (false, w2)
          else
            let w3 := w2.record (Call.IsKeySignedBy userID deviceSigningKey userID theirSSK)
            let d := mach.CryptoStore.IsKeySignedBy userID deviceSigningKey userID theirSSK
            match d.2 with
            | some _ => (false, w3)
            | none => (d.1, w3)

/-- `OlmMachine.IsUserTrusted`. -/
def IsUserTrusted (mach : OlmMachine) (userID : UserID) (w : World) : Bool × World :=
  let w1 := w.record Call.GetOwnCrossSigningPublicKeys
  match mach.GetOwnCrossSigningPublicKeys with
  | none => (false, w1)
  | some csPubkeys =>
    if userID = mach.Client.UserID then (true, w1)
    else
      let w2 := w1.record
        (Call.GetSignaturesForKeyBy mach.Client.UserID csPubkeys.UserSigningKey mach.Client.UserID)
      let g := mach.CryptoStore.GetSignaturesForKeyBy mach.Client.UserID csPubkeys.UserSigningKey
        mach.Client.UserID
      match g.2 with
      | some _ => (false, w2)
      | none =>
        match g.1 csPubkeys.MasterKey with
        | none => (false, w2)
        | some _ =>
          let w3 := w2.record (Call.GetCrossSigningKeys userID)
          let r := mach.CryptoStore.GetCrossSigningKeys userID
          match r.2 with
          | some _ => (false, w3)
          | none =>
            match r.1 CrossSigningUsage.XSUsageMaster with
            | none => (false, w3)
            | some theirMskKey =>
              let w4 := w3.record
                (Call.IsKeySignedBy userID theirMskKey mach.Client.UserID csPubkeys.UserSigningKey)
              let e := mach.CryptoStore.IsKeySignedBy userID theirMskKey mach.Client.UserID
                csPubkeys.UserSigningKey
              match e.2 with
              | some _ => (false, w4)
              | none => (e.1, w4)

/-- `OlmMachine.ResolveTrust`. -/
def ResolveTrust (mach : OlmMachine) (device : DeviceIdentity) (w : World) :
    TrustState × World :=
  if device.Trust = TrustState.TrustStateVerified
      ∨ device.Trust = TrustState.TrustStateBlacklisted then
    (device.Trust, w)
  else
    let c := IsKeyCrossSigned mach device.UserID device.SigningKey w
    if c.1 then
      let u := IsUserTrusted mach device.UserID c.2
      if u.1 then (TrustState.TrustStateCrossSignedTrusted, u.2)
      else (TrustState.TrustStateCrossSigned, u.2)
    else (TrustState.TrustStateUnset, c.2)

/-- `OlmMachine.IsDeviceTrusted`. -/
def IsDeviceTrusted (mach : OlmMachine) (device : DeviceIdentity) (w : World) :
    Bool × World :=
  let r := ResolveTrust mach device w
  match r.1 with
  | TrustState.TrustStateVerified => (true, r.2)
  | TrustState.TrustStateCrossSigned => (true, r.2)
  | TrustState.TrustStateCrossSignedTrusted => (true, r.2)
  | _ => (false, r.2)

/-! ## `decryptmegolm.go` -/

/-- The value recorded for a ledger key, if any (the first entry with that key). -/
def lookupIndex (key : MessageIndexKey) : Ledger → Option MessageIndexValue
  | [] => none
  | (k, v) :: rest => if k = key then some v else lookupIndex key rest

/-- Modelled from the spec: the store method `ValidateMessageIndex` is implemented outside
the embedded files. The spec describes it as an atomic check-and-record on a ledger keyed
by (sender key, session ID, message index) that records which event ID and timestamp
first claimed the index: insert if absent, else compare. The result is the returned
boolean and the ledger after the call. -/
def ValidateMessageIndex (ledger : Ledger) (senderKey : SenderKey) (sessionID : SessionID)
    (eventID : EventID) (index : Nat) (timestamp : Int) : Bool × Ledger :=
  match lookupIndex ⟨senderKey, sessionID, index⟩ ledger with
  | none => (true, ledger ++ [(⟨senderKey, sessionID, index⟩, ⟨eventID, timestamp⟩)])
  | some val => (decide (val.EventID = eventID ∧ val.Timestamp = timestamp), ledger)

/-- How a call of `DecryptMegolmEvent` ends: it returns the Go pair `(*event.Event, error)`
or it panics on a nil pointer dereference. -/
inductive Outcome where
  | returned (evt : Option Event) (err : Option Error)
  | panicked
  deriving DecidableEq, Repr

/-- `OlmMachine.DecryptMegolmEvent`. The diagnostic `checkIfWedged` returns nothing; its
only trace in the model is its entry in the call log. When `json.Unmarshal` leaves
`megolmEvt` nil without an error, evaluating `megolmEvt.Content` panics. -/
def DecryptMegolmEvent (mach : OlmMachine) (evt : Event) (w : World) : Outcome × World :=
  match evt.Content.Parsed with
  | ParsedContent.Encrypted content =>
    let w1 := w.record (Call.GetGroupSession evt.RoomID content.SenderKey content.SessionID)
    let g := mach.store.GetGroupSession evt.RoomID content.SenderKey content.SessionID
    match g.2 with
    | some err => (Outcome.returned none (some (Error.Wrap err "failed to get group session")), w1)
    | none =>
      match g.1 with
      | none =>
        (Outcome.returned none (some Error.NoSessionFound), w1.record (Call.checkIfWedged evt.ID))
      | some sess =>
        let w2 := w1.record (Call.Decrypt content.MegolmCiphertext)
        let d := sess.Decrypt content.MegolmCiphertext
        match d.2.2 with
        | some err =>
          (Outcome.returned none (some (Error.Wrap err "failed to decrypt megolm event")), w2)
        | none =>
          let v := ValidateMessageIndex w2.ledger content.SenderKey content.SessionID evt.ID
            d.2.1 evt.Timestamp
          let w3 : World :=
            { calls := w2.calls ++ [Call.ValidateMessageIndex content.SenderKey
                content.SessionID evt.ID d.2.1 evt.Timestamp],
              ledger := v.2 }
          if !v.1 then (Outcome.returned none (some Error.DuplicateMessageIndex), w3)
          else
            let u := mach.Unmarshal d.1
            match u.2 with
            | some err =>
              (Outcome.returned none (some (Error.Wrap err "failed to parse megolm payload")), w3)
            | none =>
              match u.1 with
              | none => (Outcome.panicked, w3)
              | some megolmEvt =>
                let p := mach.ParseRaw megolmEvt.Content megolmEvt.Type_
                let out : Event :=
                  { Sender := evt.Sender, Type_ := megolmEvt.Type_, Timestamp := evt.Timestamp,
                    ID := evt.ID, RoomID := evt.RoomID, Content := p.1,
                    Unsigned := evt.Unsigned }
                match p.2 with
                | none => (Outcome.returned (some out) none, w3)
                | some err =>
                  if !mach.IsUnsupportedContentType err then
                    (Outcome.returned none
                      (some (Error.Wrap err "failed to parse content of megolm payload event")),
                      w3)
                  else (Outcome.returned (some out) none, w3)
  | _ => (Outcome.returned none (some Error.IncorrectEncryptedContentType), w)

/-- Run `DecryptMegolmEvent` on a sequence of envelopes, one after the other, and keep
the final world. -/
def decryptAll (mach : OlmMachine) : List Event → World → World
  | [], w => w
  | evt :: rest, w => decryptAll mach rest (DecryptMegolmEvent mach evt w).2

/-! ## The four signature edges of the trust chain, as the store reports them -/

/-- The edge "device key signed by the user's self-signing key": the user's key set
holds a self-signing key and `IsKeySignedBy` reports the device key as signed by it. -/
def deviceKeyEdge (st : Store) (userID : UserID) (deviceSigningKey : SigningKey) : Bool :=
  match (st.GetCrossSigningKeys userID).1 CrossSigningUsage.XSUsageSelfSigning with
  | some ssk => (st.IsKeySignedBy userID deviceSigningKey userID ssk).1
  | none => false

/-- The edge "self-signing key signed by the user's master key": the user's key set holds
both keys and `IsKeySignedBy` reports the self-signing key as signed by the master key. -/
def selfSigningKeyEdge (st : Store) (userID : UserID) : Bool :=
  match (st.GetCrossSigningKeys userID).1 CrossSigningUsage.XSUsageMaster,
      (st.GetCrossSigningKeys userID).1 CrossSigningUsage.XSUsageSelfSigning with
  | some msk, some ssk => (st.IsKeySignedBy userID ssk userID msk).1
  | _, _ => false

/-- The edge "local user-signing key signed by the local master key": the signatures
on the local user-signing key made by the local user include one by the local master
key. -/
def userSigningKeyEdge (st : Store) (localID : UserID) (own : CrossSigningPublicKeysCache) :
    Bool :=
  ((st.GetSignaturesForKeyBy localID own.UserSigningKey localID).1 own.MasterKey).isSome

/-- The edge "user's master key signed by the local user-signing key": the user's key
set holds a master key and `IsKeySignedBy` reports it as signed by the local
user-signing key. -/
def masterKeyEdge (st : Store) (userID localID : UserID) (own : CrossSigningPublicKeysCache) :
    Bool :=
  match (st.GetCrossSigningKeys userID).1 CrossSigningUsage.XSUsageMaster with
  | some msk => (st.IsKeySignedBy userID msk localID own.UserSigningKey).1
  | none => false

/-! ## Notions used to state the properties of the decryption pipeline -/

/-- The ledger key an envelope claims: defined when the content is an
encrypted-group-message content, the session is found without a store error and the
session's `Decrypt` succeeds. -/
def claimedIndex (mach : OlmMachine) (evt : Event) : Option MessageIndexKey :=
  match evt.Content.Parsed with
  | ParsedContent.Encrypted content =>
    match (mach.store.GetGroupSession evt.RoomID content.SenderKey content.SessionID).2,
        (mach.store.GetGroupSession evt.RoomID content.SenderKey content.SessionID).1 with
    | none, some sess =>
      match (sess.Decrypt content.MegolmCiphertext).2.2 with
      | none =>
        some ⟨content.SenderKey, content.SessionID, (sess.Decrypt content.MegolmCiphertext).2.1⟩
      | some _ => none
    | _, _ => none
  | _ => none

/-- Whether the plaintext of an envelope parses: `json.Unmarshal` leaves a `MegolmEvent`
without error, and `ParseRaw` returns no error or an unsupported-content-type error. -/
def plaintextParses (mach : OlmMachine) (evt : Event) : Bool :=
  match evt.Content.Parsed with
  | ParsedContent.Encrypted content =>
    match (mach.store.GetGroupSession evt.RoomID content.SenderKey content.SessionID).1 with
    | some sess =>
      match (mach.Unmarshal (sess.Decrypt content.MegolmCiphertext).1).2,
          (mach.Unmarshal (sess.Decrypt content.MegolmCiphertext).1).1 with
      | none, some megolmEvt =>
        match (mach.ParseRaw megolmEvt.Content megolmEvt.Type_).2 with
        | none => true
        | some err => mach.IsUnsupportedContentType err
      | _, _ => false
    | none => false
  | _ => false

/-- Whether a logged call is a `ValidateMessageIndex` call. -/
def Call.isValidate : Call → Bool
  | Call.ValidateMessageIndex _ _ _ _ _ => true
  | _ => false

/-- The calls that one run of `DecryptMegolmEvent` adds to the log. -/
def newCalls (mach : OlmMachine) (evt : Event) (w : World) : List Call :=
  (DecryptMegolmEvent mach evt w).2.calls.drop w.calls.length

/-- Whether an error is one of the two wrapped parse failures of `DecryptMegolmEvent`. -/
def isParseFailure : Error → Bool
  | Error.Wrap _ message =>
    message = "failed to parse megolm payload"
      || message = "failed to parse content of megolm payload event"
  | _ => false

/-! ## Concrete stores and machines used to instantiate the theorems -/

/-- A group session whose `Decrypt` knows three ciphertexts: `ct-msg` (index 0, a text
message), `ct-junk` (index 1, not JSON) and `ct-evil` (index 0, a text message that
names its own sender, room, event ID and timestamp); everything else fails. -/
def demoSession : InboundGroupSession where
  Decrypt := fun ciphertext =>
    if ciphertext = "ct-msg" then ("msg", 0, none)
    else if ciphertext = "ct-junk" then ("junk", 1, none)
    else if ciphertext = "ct-evil" then ("evil", 0, none)
    else ("", 0, some (Error.External "bad message MAC"))

/-- A store that holds `demoSession` for room `!room`, sender key `SK` and session `sid`
and no other session. -/
def demoStore : Store where
  GetCrossSigningKeys := fun _ => (fun _ => none, none)
  IsKeySignedBy := fun _ _ _ _ => (false, none)
  GetSignaturesForKeyBy := fun _ _ _ => (fun _ => none, none)
  GetGroupSession := fun roomID senderKey sessionID =>
    if roomID = "!room" ∧ senderKey = "SK" ∧ sessionID = "sid" then (some demoSession, none)
    else (none, none)

/-- A machine over `demoStore` whose JSON collaborators understand the plaintexts `msg`
and `evil` (both of type `m.room.message`) and reject everything else. -/
def demoMachine : OlmMachine where
  Client := { UserID := "@me" }
  CryptoStore := demoStore
  store := demoStore
  GetOwnCrossSigningPublicKeys := none
  Unmarshal := fun plaintext =>
    if plaintext = "msg" then (some ⟨"m.room.message", ⟨"body: hi", ParsedContent.NotParsed⟩⟩, none)
    else if plaintext = "evil" then
      (some ⟨"m.room.message", ⟨"body: hi, sender: @mallory", ParsedContent.NotParsed⟩⟩, none)
    else (some ⟨"", ⟨"", ParsedContent.NotParsed⟩⟩, some (Error.External "invalid character"))
  ParseRaw := fun content evtType =>
    if evtType = "m.room.message" then
      ({ content with Parsed := ParsedContent.OtherContent "m.room.message" }, none)
    else (content, some (Error.External "unsupported content type"))
  IsUnsupportedContentType := fun err => err = Error.External "unsupported content type"

/-- An encrypted envelope of room `!room` from `@alice` for session `sid` of sender key
`SK`, with the given event ID, timestamp and ciphertext. -/
def envelope (eventID : EventID) (timestamp : Int) (ciphertext : String) : Event where
  Sender := "@alice"
  Type_ := "m.room.encrypted"
  Timestamp := timestamp
  ID := eventID
  RoomID := "!room"
  Content := { VeryRaw := "", Parsed := ParsedContent.Encrypted ⟨"SK", "sid", ciphertext⟩ }
  Unsigned := "age: 5"

/-- A store whose every operation returns an error. -/
def failingStore : Store where
  GetCrossSigningKeys := fun _ => (fun _ => none, some (Error.External "db down"))
  IsKeySignedBy := fun _ _ _ _ => (false, some (Error.External "db down"))
  GetSignaturesForKeyBy := fun _ _ _ => (fun _ => none, some (Error.External "db down"))
  GetGroupSession := fun _ _ _ => (none, some (Error.External "db down"))

/-- A store over the signature edges `edges` (signed user, signed key, signer user,
signer key), in which `@alice` has master key `M` and self-signing key `S` and no
lookup errors. -/
def edgeStore (edges : List (UserID × Ed25519 × UserID × Ed25519)) : Store where
  GetCrossSigningKeys := fun u =>
    (fun usage =>
      if u = "@alice" then
        match usage with
        | CrossSigningUsage.XSUsageMaster => some "M"
        | CrossSigningUsage.XSUsageSelfSigning => some "S"
        | CrossSigningUsage.XSUsageUserSigning => none
      else none, none)
  IsKeySignedBy := fun u k su sk => (decide ((u, k, su, sk) ∈ edges), none)
  GetSignaturesForKeyBy := fun u k su =>
    (fun sk => if (u, k, su, sk) ∈ edges then some "sig" else none, none)
  GetGroupSession := fun _ _ _ => (none, none)

/-- The own cross-signing public keys of the local account `@me`. -/
def ownKeys : CrossSigningPublicKeysCache :=
  { MasterKey := "LM", SelfSigningKey := "LS", UserSigningKey := "LU" }

/-- A machine of the local account `@me` over the given store and own-key cache, whose
JSON collaborators reject every input. -/
def machineOver (st : Store) (own : Option CrossSigningPublicKeysCache) : OlmMachine where
  Client := { UserID := "@me" }
  CryptoStore := st
  store := st
  GetOwnCrossSigningPublicKeys := own
  Unmarshal := fun _ => (none, some (Error.External "invalid JSON"))
  ParseRaw := fun c _ => (c, some (Error.External "unsupported"))
  IsUnsupportedContentType := fun _ => false

/-- The full chain of the scenario: `S ← M`, `D ← S`, `LU ← LM` and `M ← LU`. -/
def fullChain : List (UserID × Ed25519 × UserID × Ed25519) :=
  [("@alice", "S", "@alice", "M"), ("@alice", "D", "@alice", "S"),
   ("@me", "LU", "@me", "LM"), ("@alice", "M", "@me", "LU")]

/-- The empty world: nothing called, nothing recorded. -/
def emptyWorld : World := { calls := [], ledger := [] }

/-- A group session that decrypts every ciphertext to the plaintext `evil` at index 0. -/
def forgedSession : InboundGroupSession where
  Decrypt := fun _ => ("evil", 0, none)

/-- The machine `demoMachine` over a store that holds `forgedSession` for every room,
sender key and session ID. -/
def forgedMachine : OlmMachine :=
  { demoMachine with
    store := { demoStore with GetGroupSession := fun _ _ _ => (some forgedSession, none) } }

/-- A machine whose local account is `@alice` herself, over the store in which her
device key `D` is cross-signed (`S ← M`, `D ← S`) and no other signature exists. -/
def ownDeviceMachine (own : Option CrossSigningPublicKeysCache) : OlmMachine :=
  { machineOver (edgeStore [("@alice", "S", "@alice", "M"), ("@alice", "D", "@alice", "S")])
      own with Client := { UserID := "@alice" } }

/-- A group session whose `Decrypt` knows three ciphertexts: `ct-future` (index 0, an
event of a type unknown to the client), `ct-broken` (index 1, a text message whose
content does not fit its type) and `ct-null` (index 2, the JSON literal `null`);
everything else fails. -/
def forwardSession : InboundGroupSession where
  Decrypt := fun ciphertext =>
    if ciphertext = "ct-future" then ("future", 0, none)
    else if ciphertext = "ct-broken" then ("broken", 1, none)
    else if ciphertext = "ct-null" then ("null", 2, none)
    else ("", 0, some (Error.External "bad message MAC"))

/-- A machine over a store that holds `forwardSession` for room `!room`, sender key `SK`
and session `sid`. Its `Unmarshal` reads the plaintexts `future` and `broken`, leaves
the `MegolmEvent` pointer nil without an error on `null`, and rejects everything else;
its `ParseRaw` fails on `m.room.message` with an error that is not an
unsupported-content-type error and leaves every other content as it was given, with an
unsupported-content-type error. -/
def forwardMachine : OlmMachine where
  Client := { UserID := "@me" }
  CryptoStore := demoStore
  store :=
    { demoStore with
      GetGroupSession := fun roomID senderKey sessionID =>
        if roomID = "!room" ∧ senderKey = "SK" ∧ sessionID = "sid" then
          (some forwardSession, none)
        else (none, none) }
  GetOwnCrossSigningPublicKeys := none
  Unmarshal := fun plaintext =>
    if plaintext = "future" then
      (some ⟨"org.example.future", ⟨"level: 3", ParsedContent.NotParsed⟩⟩, none)
    else if plaintext = "broken" then
      (some ⟨"m.room.message", ⟨"body: 7", ParsedContent.NotParsed⟩⟩, none)
    else if plaintext = "null" then (none, none)
    else (some ⟨"", ⟨"", ParsedContent.NotParsed⟩⟩, some (Error.External "invalid character"))
  ParseRaw := fun content evtType =>
    if evtType = "m.room.message" then
      ({ content with Parsed := ParsedContent.OtherContent "m.room.message" },
        some (Error.External "cannot unmarshal number into string"))
    else (content, some (Error.External "unsupported content type"))
  IsUnsupportedContentType := fun err => err = Error.External "unsupported content type"

/-- An envelope of room `!room` from `@alice` whose content is an already parsed text
message, not an encrypted-group-message content. -/
def plainEnvelope : Event where
  Sender := "@alice"
  Type_ := "m.room.message"
  Timestamp := 1000
  ID := "$p1"
  RoomID := "!room"
  Content := { VeryRaw := "body: hi", Parsed := ParsedContent.OtherContent "m.room.message" }
  Unsigned := ""

/-! ## Theorems on the trust resolver -/

/-- The early return of `ResolveTrust`. -/
theorem resolveTrust_shortcut (mach : OlmMachine) (device : DeviceIdentity) (w : World)
    (h : device.Trust = TrustState.TrustStateVerified
      ∨ device.Trust = TrustState.TrustStateBlacklisted) :
    ResolveTrust mach device w = (device.Trust, w) := by
  unfold ResolveTrust
  rw [if_pos h]

/-- Without store errors, the boolean of `IsKeyCrossSigned` is the conjunction of the
device-key edge and the self-signing-key edge. -/
theorem isKeyCrossSigned_edges (mach : OlmMachine) (userID : UserID)
    (deviceSigningKey : SigningKey) (w : World)
    (hk : ∀ u, (mach.CryptoStore.GetCrossSigningKeys u).2 = none)
    (hs : ∀ u k su sk, (mach.CryptoStore.IsKeySignedBy u k su sk).2 = none) :
    (IsKeyCrossSigned mach userID deviceSigningKey w).1
      = (deviceKeyEdge mach.CryptoStore userID deviceSigningKey
          && selfSigningKeyEdge mach.CryptoStore userID) := by
  unfold IsKeyCrossSigned deviceKeyEdge selfSigningKeyEdge
  simp only [hk, hs]
  cases (mach.CryptoStore.GetCrossSigningKeys userID).1 CrossSigningUsage.XSUsageMaster <;>
    cases (mach.CryptoStore.GetCrossSigningKeys userID).1
      CrossSigningUsage.XSUsageSelfSigning <;> simp
  rename_i msk ssk
  cases (mach.CryptoStore.IsKeySignedBy userID ssk userID msk).1 <;> simp

/-- For a remote user, with the own keys loaded and without store errors, the boolean
of `IsUserTrusted` is the conjunction of the user-signing-key edge and the master-key
edge. -/
theorem isUserTrusted_edges (mach : OlmMachine) (userID : UserID) (w : World)
    (own : CrossSigningPublicKeysCache)
    (hown : mach.GetOwnCrossSigningPublicKeys = some own)
    (hremote : userID ≠ mach.Client.UserID)
    (hk : ∀ u, (mach.CryptoStore.GetCrossSigningKeys u).2 = none)
    (hs : ∀ u k su sk, (mach.CryptoStore.IsKeySignedBy u k su sk).2 = none)
    (hg : ∀ u k su, (mach.CryptoStore.GetSignaturesForKeyBy u k su).2 = none) :
    (IsUserTrusted mach userID w).1
      = (userSigningKeyEdge mach.CryptoStore mach.Client.UserID own
          && masterKeyEdge mach.CryptoStore userID mach.Client.UserID own) := by
  unfold IsUserTrusted userSigningKeyEdge masterKeyEdge
  simp only [hown, hk, hs, hg, if_neg hremote]
  cases (mach.CryptoStore.GetSignaturesForKeyBy mach.Client.UserID own.UserSigningKey
      mach.Client.UserID).1 own.MasterKey <;>
    cases (mach.CryptoStore.GetCrossSigningKeys userID).1 CrossSigningUsage.XSUsageMaster <;>
    simp

/-- C1: for a device recorded as Verified or Blacklisted, `ResolveTrust` returns the
recorded state and leaves the world untouched: no store operation and no lookup of the
own cross-signing keys is logged, whatever the store answers. -/
theorem ResolveTrust_terminal (mach : OlmMachine) (device : DeviceIdentity) (w : World)
    (h : device.Trust = TrustState.TrustStateVerified
      ∨ device.Trust = TrustState.TrustStateBlacklisted) :
    ResolveTrust mach device w = (device.Trust, w) :=
  resolveTrust_shortcut mach device w h

/-- Instance of C1 on the store whose every operation errors. -/
theorem ResolveTrust_terminal_witness :
    ((⟨"@alice", "D", TrustState.TrustStateBlacklisted⟩ : DeviceIdentity).Trust
        = TrustState.TrustStateVerified
      ∨ (⟨"@alice", "D", TrustState.TrustStateBlacklisted⟩ : DeviceIdentity).Trust
        = TrustState.TrustStateBlacklisted)
    ∧ ResolveTrust (machineOver failingStore none)
        ⟨"@alice", "D", TrustState.TrustStateBlacklisted⟩ emptyWorld
      = (TrustState.TrustStateBlacklisted, emptyWorld) :=
  ⟨Or.inr rfl, ResolveTrust_terminal _ _ _ (Or.inr rfl)⟩

/-- C3: `IsKeyCrossSigned` returns true exactly when `GetCrossSigningKeys` succeeds, the
key set holds a master key and a self-signing key, `IsKeySignedBy` reports without error
that the self-signing key is signed by the master key, and `IsKeySignedBy` reports
without error that the device signing key is signed by the self-signing key; in every
other case it returns false. -/
theorem IsKeyCrossSigned_iff (mach : OlmMachine) (userID : UserID)
    (deviceSigningKey : SigningKey) (w : World) :
    ((IsKeyCrossSigned mach userID deviceSigningKey w).1 = true ↔
      ∃ theirMSK theirSSK,
        (mach.CryptoStore.GetCrossSigningKeys userID).2 = none
        ∧ (mach.CryptoStore.GetCrossSigningKeys userID).1 CrossSigningUsage.XSUsageMaster
            = some theirMSK
        ∧ (mach.CryptoStore.GetCrossSigningKeys userID).1 CrossSigningUsage.XSUsageSelfSigning
            = some theirSSK
        ∧ mach.CryptoStore.IsKeySignedBy userID theirSSK userID theirMSK = (true, none)
        ∧ mach.CryptoStore.IsKeySignedBy userID deviceSigningKey userID theirSSK
            = (true, none))
    ∧ ((IsKeyCrossSigned mach userID deviceSigningKey w).1 = false ↔
      ¬ ∃ theirMSK theirSSK,
        (mach.CryptoStore.GetCrossSigningKeys userID).2 = none
        ∧ (mach.CryptoStore.GetCrossSigningKeys userID).1 CrossSigningUsage.XSUsageMaster
            = some theirMSK
        ∧ (mach.CryptoStore.GetCrossSigningKeys userID).1 CrossSigningUsage.XSUsageSelfSigning
            = some theirSSK
        ∧ mach.CryptoStore.IsKeySignedBy userID theirSSK userID theirMSK = (true, none)
        ∧ mach.CryptoStore.IsKeySignedBy userID deviceSigningKey userID theirSSK
            = (true, none)) := by
  have key : (IsKeyCrossSigned mach userID deviceSigningKey w).1 = true ↔
      ∃ theirMSK theirSSK,
        (mach.CryptoStore.GetCrossSigningKeys userID).2 = none
        ∧ (mach.CryptoStore.GetCrossSigningKeys userID).1 CrossSigningUsage.XSUsageMaster
            = some theirMSK
        ∧ (mach.CryptoStore.GetCrossSigningKeys userID).1 CrossSigningUsage.XSUsageSelfSigning
            = some theirSSK
        ∧ mach.CryptoStore.IsKeySignedBy userID theirSSK userID theirMSK = (true, none)
        ∧ mach.CryptoStore.IsKeySignedBy userID deviceSigningKey userID theirSSK
            = (true, none) := by
    unfold IsKeyCrossSigned
    simp only [Prod.ext_iff]
    split
    · simp_all
    · split
      · simp_all
      · split
        · simp_all
        · split
          · simp_all
          · split
            · simp_all
            · split <;> simp_all
  refine ⟨key, ?_⟩
  rw [← key]
  simp

/-- C4: a device recorded as Blacklisted is never trusted and a device recorded as
Verified is always trusted, whatever the store holds or answers; the world is left
untouched. -/
theorem IsDeviceTrusted_terminal (mach : OlmMachine) (device : DeviceIdentity) (w : World)
    (h : device.Trust = TrustState.TrustStateBlacklisted
      ∨ device.Trust = TrustState.TrustStateVerified) :
    IsDeviceTrusted mach device w
      = (decide (device.Trust = TrustState.TrustStateVerified), w) := by
  unfold IsDeviceTrusted
  rw [resolveTrust_shortcut mach device w (Or.symm h)]
  rcases h with h | h <;> simp [h]

/-- Instances of C4: a Blacklisted device whose key is fully cross-signed and whose user
is trusted stays untrusted (the same device recorded as Unset is trusted), and a
Verified device over the store whose every operation errors stays trusted (the same
device recorded as Unset is not). -/
theorem IsDeviceTrusted_terminal_witness :
    IsDeviceTrusted (machineOver (edgeStore fullChain) (some ownKeys))
        ⟨"@alice", "D", TrustState.TrustStateBlacklisted⟩ emptyWorld = (false, emptyWorld)
    ∧ (IsDeviceTrusted (machineOver (edgeStore fullChain) (some ownKeys))
        ⟨"@alice", "D", TrustState.TrustStateUnset⟩ emptyWorld).1 = true
    ∧ IsDeviceTrusted (machineOver failingStore none)
        ⟨"@alice", "D", TrustState.TrustStateVerified⟩ emptyWorld = (true, emptyWorld)
    ∧ (IsDeviceTrusted (machineOver failingStore none)
        ⟨"@alice", "D", TrustState.TrustStateUnset⟩ emptyWorld).1 = false :=
  ⟨IsDeviceTrusted_terminal _ ⟨"@alice", "D", TrustState.TrustStateBlacklisted⟩ _ (Or.inl rfl),
   by decide,
   IsDeviceTrusted_terminal _ ⟨"@alice", "D", TrustState.TrustStateVerified⟩ _ (Or.inr rfl),
   by decide⟩

/-- C2: for a device of a remote user whose recorded state is neither Verified nor
Blacklisted, over a store whose lookups do not error and with the own cross-signing
keys loaded, `ResolveTrust` returns CrossSignedTrusted exactly when all four signature
edges exist, CrossSigned exactly when the device-key and self-signing-key edges exist
but the user-signing-key edge or the master-key edge does not, and Unset exactly when
the device-key edge or the self-signing-key edge is missing. -/
theorem ResolveTrust_remote_chain (mach : OlmMachine) (device : DeviceIdentity) (w : World)
    (own : CrossSigningPublicKeysCache)
    (hremote : device.UserID ≠ mach.Client.UserID)
    (hstate : device.Trust ≠ TrustState.TrustStateVerified
      ∧ device.Trust ≠ TrustState.TrustStateBlacklisted)
    (hown : mach.GetOwnCrossSigningPublicKeys = some own)
    (hk : ∀ u, (mach.CryptoStore.GetCrossSigningKeys u).2 = none)
    (hs : ∀ u k su sk, (mach.CryptoStore.IsKeySignedBy u k su sk).2 = none)
    (hg : ∀ u k su, (mach.CryptoStore.GetSignaturesForKeyBy u k su).2 = none) :
    ((ResolveTrust mach device w).1 = TrustState.TrustStateCrossSignedTrusted ↔
      deviceKeyEdge mach.CryptoStore device.UserID device.SigningKey = true
      ∧ selfSigningKeyEdge mach.CryptoStore device.UserID = true
      ∧ userSigningKeyEdge mach.CryptoStore mach.Client.UserID own = true
      ∧ masterKeyEdge mach.CryptoStore device.UserID mach.Client.UserID own = true)
    ∧ ((ResolveTrust mach device w).1 = TrustState.TrustStateCrossSigned ↔
      deviceKeyEdge mach.CryptoStore device.UserID device.SigningKey = true
      ∧ selfSigningKeyEdge mach.CryptoStore device.UserID = true
      ∧ (userSigningKeyEdge mach.CryptoStore mach.Client.UserID own = false
        ∨ masterKeyEdge mach.CryptoStore device.UserID mach.Client.UserID own = false))
    ∧ ((ResolveTrust mach device w).1 = TrustState.TrustStateUnset ↔
      deviceKeyEdge mach.CryptoStore device.UserID device.SigningKey = false
      ∨ selfSigningKeyEdge mach.CryptoStore device.UserID = false) := by
  have hc := isKeyCrossSigned_edges mach device.UserID device.SigningKey w hk hs
  have hu := isUserTrusted_edges mach device.UserID
    (IsKeyCrossSigned mach device.UserID device.SigningKey w).2 own hown hremote hk hs hg
  unfold ResolveTrust
  rw [if_neg (by simp [hstate.1, hstate.2])]
  simp only [hc, hu]
  cases deviceKeyEdge mach.CryptoStore device.UserID device.SigningKey <;>
    cases selfSigningKeyEdge mach.CryptoStore device.UserID <;>
    cases userSigningKeyEdge mach.CryptoStore mach.Client.UserID own <;>
    cases masterKeyEdge mach.CryptoStore device.UserID mach.Client.UserID own <;>
    simp

/-- The scenario of C2: with the full chain the device resolves to CrossSignedTrusted;
without the signature of the local user-signing key on the remote master key it
resolves to CrossSigned; without the signature of the master key on the self-signing
key it resolves to Unset. -/
theorem ResolveTrust_remote_chain_witness :
    ("@alice" ≠ (machineOver (edgeStore fullChain) (some ownKeys)).Client.UserID
      ∧ (machineOver (edgeStore fullChain) (some ownKeys)).GetOwnCrossSigningPublicKeys
        = some ownKeys)
    ∧ (ResolveTrust (machineOver (edgeStore fullChain) (some ownKeys))
        ⟨"@alice", "D", TrustState.TrustStateUnset⟩ emptyWorld).1
      = TrustState.TrustStateCrossSignedTrusted
    ∧ (ResolveTrust (machineOver (edgeStore [("@alice", "S", "@alice", "M"),
          ("@alice", "D", "@alice", "S"), ("@me", "LU", "@me", "LM")]) (some ownKeys))
        ⟨"@alice", "D", TrustState.TrustStateUnset⟩ emptyWorld).1
      = TrustState.TrustStateCrossSigned
    ∧ (ResolveTrust (machineOver (edgeStore [("@alice", "D", "@alice", "S"),
          ("@me", "LU", "@me", "LM"), ("@alice", "M", "@me", "LU")]) (some ownKeys))
        ⟨"@alice", "D", TrustState.TrustStateUnset⟩ emptyWorld).1
      = TrustState.TrustStateUnset :=
  ⟨⟨by decide, rfl⟩,
   (ResolveTrust_remote_chain (machineOver (edgeStore fullChain) (some ownKeys))
      ⟨"@alice", "D", TrustState.TrustStateUnset⟩ emptyWorld ownKeys (by decide) (by decide)
      rfl (fun _ => rfl) (fun _ _ _ _ => rfl) (fun _ _ _ => rfl)).1.2 (by decide),
   (ResolveTrust_remote_chain (machineOver (edgeStore [("@alice", "S", "@alice", "M"),
          ("@alice", "D", "@alice", "S"), ("@me", "LU", "@me", "LM")]) (some ownKeys))
      ⟨"@alice", "D", TrustState.TrustStateUnset⟩ emptyWorld ownKeys (by decide) (by decide)
      rfl (fun _ => rfl) (fun _ _ _ _ => rfl) (fun _ _ _ => rfl)).2.1.2 (by decide),
   (ResolveTrust_remote_chain (machineOver (edgeStore [("@alice", "D", "@alice", "S"),
          ("@me", "LU", "@me", "LM"), ("@alice", "M", "@me", "LU")]) (some ownKeys))
      ⟨"@alice", "D", TrustState.TrustStateUnset⟩ emptyWorld ownKeys (by decide) (by decide)
      rfl (fun _ => rfl) (fun _ _ _ _ => rfl) (fun _ _ _ => rfl)).2.2.2 (by decide)⟩

/-- C9: for a user ID different from the local account, `IsUserTrusted` returns true
exactly when the own cross-signing public keys load, `GetSignaturesForKeyBy` succeeds
and the signatures on the local user-signing key include one by the local master key,
`GetCrossSigningKeys` succeeds for the remote user and holds a master key, and
`IsKeySignedBy` reports without error that the remote master key is signed by the local
user-signing key; in every other case it returns false. -/
theorem IsUserTrusted_remote_iff (mach : OlmMachine) (userID : UserID) (w : World)
    (hremote : userID ≠ mach.Client.UserID) :
    ((IsUserTrusted mach userID w).1 = true ↔
      ∃ csPubkeys theirMskKey,
        mach.GetOwnCrossSigningPublicKeys = some csPubkeys
        ∧ (mach.CryptoStore.GetSignaturesForKeyBy mach.Client.UserID
            csPubkeys.UserSigningKey mach.Client.UserID).2 = none
        ∧ ((mach.CryptoStore.GetSignaturesForKeyBy mach.Client.UserID
            csPubkeys.UserSigningKey mach.Client.UserID).1 csPubkeys.MasterKey).isSome = true
        ∧ (mach.CryptoStore.GetCrossSigningKeys userID).2 = none
        ∧ (mach.CryptoStore.GetCrossSigningKeys userID).1 CrossSigningUsage.XSUsageMaster
            = some theirMskKey
        ∧ mach.CryptoStore.IsKeySignedBy userID theirMskKey mach.Client.UserID
            csPubkeys.UserSigningKey = (true, none))
    ∧ ((IsUserTrusted mach userID w).1 = false ↔
      ¬ ∃ csPubkeys theirMskKey,
        mach.GetOwnCrossSigningPublicKeys = some csPubkeys
        ∧ (mach.CryptoStore.GetSignaturesForKeyBy mach.Client.UserID
            csPubkeys.UserSigningKey mach.Client.UserID).2 = none
        ∧ ((mach.CryptoStore.GetSignaturesForKeyBy mach.Client.UserID
            csPubkeys.UserSigningKey mach.Client.UserID).1 csPubkeys.MasterKey).isSome = true
        ∧ (mach.CryptoStore.GetCrossSigningKeys userID).2 = none
        ∧ (mach.CryptoStore.GetCrossSigningKeys userID).1 CrossSigningUsage.XSUsageMaster
            = some theirMskKey
        ∧ mach.CryptoStore.IsKeySignedBy userID theirMskKey mach.Client.UserID
            csPubkeys.UserSigningKey = (true, none)) := by
  have key : (IsUserTrusted mach userID w).1 = true ↔
      ∃ csPubkeys theirMskKey,
        mach.GetOwnCrossSigningPublicKeys = some csPubkeys
        ∧ (mach.CryptoStore.GetSignaturesForKeyBy mach.Client.UserID
            csPubkeys.UserSigningKey mach.Client.UserID).2 = none
        ∧ ((mach.CryptoStore.GetSignaturesForKeyBy mach.Client.UserID
            csPubkeys.UserSigningKey mach.Client.UserID).1 csPubkeys.MasterKey).isSome = true
        ∧ (mach.CryptoStore.GetCrossSigningKeys userID).2 = none
        ∧ (mach.CryptoStore.GetCrossSigningKeys userID).1 CrossSigningUsage.XSUsageMaster
            = some theirMskKey
        ∧ mach.CryptoStore.IsKeySignedBy userID theirMskKey mach.Client.UserID
            csPubkeys.UserSigningKey = (true, none) := by
    unfold IsUserTrusted
    simp only [Prod.ext_iff]
    split
    · simp_all
    · rw [if_neg hremote]
      split
      · simp_all
      · split
        · simp_all
        · split
          · simp_all
          · split
            · simp_all
            · split <;> simp_all
  refine ⟨key, ?_⟩
  rw [← key]
  simp

/-- Instances of C9: over the full chain the remote user `@alice` is trusted; without
the signature of the local user-signing key on her master key she is not. -/
theorem IsUserTrusted_remote_iff_witness :
    "@alice" ≠ (machineOver (edgeStore fullChain) (some ownKeys)).Client.UserID
    ∧ (IsUserTrusted (machineOver (edgeStore fullChain) (some ownKeys)) "@alice"
        emptyWorld).1 = true
    ∧ (IsUserTrusted (machineOver (edgeStore [("@alice", "S", "@alice", "M"),
          ("@alice", "D", "@alice", "S"), ("@me", "LU", "@me", "LM")]) (some ownKeys))
        "@alice" emptyWorld).1 = false :=
  ⟨by decide,
   (IsUserTrusted_remote_iff (machineOver (edgeStore fullChain) (some ownKeys)) "@alice"
      emptyWorld (by decide)).1.2 ⟨ownKeys, "M", rfl, rfl, by decide, rfl, rfl, by decide⟩,
   (IsUserTrusted_remote_iff (machineOver (edgeStore [("@alice", "S", "@alice", "M"),
          ("@alice", "D", "@alice", "S"), ("@me", "LU", "@me", "LM")]) (some ownKeys))
      "@alice" emptyWorld (by decide)).2.2 (by
        rintro ⟨cs, msk, h1, -, -, -, h5, h6⟩
        cases h1
        cases h5
        revert h6
        decide)⟩

/-- C10: for a user ID different from the local account, with the own keys loaded, when
`GetSignaturesForKeyBy` errors or the signatures on the local user-signing key hold
none by the local master key, `IsUserTrusted` returns false and the only operations
logged are the own-key lookup and that `GetSignaturesForKeyBy` call: neither
`GetCrossSigningKeys` nor `IsKeySignedBy` is called, so the answer does not depend on
what the store holds about the remote user. -/
theorem IsUserTrusted_guard_local_chain (mach : OlmMachine) (userID : UserID) (w : World)
    (csPubkeys : CrossSigningPublicKeysCache)
    (hremote : userID ≠ mach.Client.UserID)
    (hown : mach.GetOwnCrossSigningPublicKeys = some csPubkeys)
    (hbad : (mach.CryptoStore.GetSignaturesForKeyBy mach.Client.UserID
          csPubkeys.UserSigningKey mach.Client.UserID).2 ≠ none
      ∨ (mach.CryptoStore.GetSignaturesForKeyBy mach.Client.UserID
          csPubkeys.UserSigningKey mach.Client.UserID).1 csPubkeys.MasterKey = none) :
    (IsUserTrusted mach userID w).1 = false
    ∧ (IsUserTrusted mach userID w).2.calls
      = w.calls ++ [Call.GetOwnCrossSigningPublicKeys,
          Call.GetSignaturesForKeyBy mach.Client.UserID csPubkeys.UserSigningKey
            mach.Client.UserID]
    ∧ (IsUserTrusted mach userID w).2.ledger = w.ledger := by
  unfold IsUserTrusted
  simp only [hown, if_neg hremote]
  split
  · simp [World.record]
  · rename_i hnone
    rcases hbad with hbad | hbad
    · exact absurd hnone hbad
    · simp [hbad, World.record]

/-- Instances of C10: the remote user `@alice` has her master key signed by the local
user-signing key, but the local user-signing key is not signed by the local master key
(first machine), or every store call errors (second machine): the answer is false and
the store is asked only for the signatures on the local user-signing key. -/
theorem IsUserTrusted_guard_local_chain_witness :
    IsUserTrusted (machineOver (edgeStore [("@alice", "S", "@alice", "M"),
        ("@alice", "D", "@alice", "S"), ("@alice", "M", "@me", "LU")]) (some ownKeys))
        "@alice" emptyWorld
      = (false, ⟨[Call.GetOwnCrossSigningPublicKeys,
          Call.GetSignaturesForKeyBy "@me" "LU" "@me"], []⟩)
    ∧ (IsUserTrusted (machineOver failingStore (some ownKeys)) "@alice" emptyWorld).1
      = false :=
  ⟨Prod.ext
    (IsUserTrusted_guard_local_chain (machineOver (edgeStore [("@alice", "S", "@alice", "M"),
        ("@alice", "D", "@alice", "S"), ("@alice", "M", "@me", "LU")]) (some ownKeys))
        "@alice" emptyWorld ownKeys (by decide) rfl (Or.inr (by decide))).1
    (by decide),
   (IsUserTrusted_guard_local_chain (machineOver failingStore (some ownKeys)) "@alice"
      emptyWorld ownKeys (by decide) rfl (Or.inl (by decide))).1⟩

/-! ## Theorems on the decryption pipeline -/

theorem lookupIndex_append (key : MessageIndexKey) (l₁ l₂ : Ledger) :
    lookupIndex key (l₁ ++ l₂)
      = match lookupIndex key l₁ with
        | some v => some v
        | none => lookupIndex key l₂ := by
  induction l₁ with
  | nil => cases h : lookupIndex key l₂ <;> simp [lookupIndex, h]
  | cons e rest ih =>
    obtain ⟨k, v⟩ := e
    by_cases hk : k = key
    · simp [lookupIndex, hk]
    · simp [lookupIndex, hk, ih]

/-- A recorded claim survives `ValidateMessageIndex`. -/
theorem validate_keeps (ledger : Ledger) (key : MessageIndexKey) (v : MessageIndexValue)
    (senderKey : SenderKey) (sessionID : SessionID) (eventID : EventID) (index : Nat)
    (timestamp : Int) (h : lookupIndex key ledger = some v) :
    lookupIndex key
      (ValidateMessageIndex ledger senderKey sessionID eventID index timestamp).2 = some v := by
  unfold ValidateMessageIndex
  split
  · simp [lookupIndex_append, h]
  · simpa using h

/-- On an unclaimed index `ValidateMessageIndex` answers true and records the claim. -/
theorem validate_fresh (ledger : Ledger) (senderKey : SenderKey) (sessionID : SessionID)
    (eventID : EventID) (index : Nat) (timestamp : Int)
    (h : lookupIndex ⟨senderKey, sessionID, index⟩ ledger = none) :
    (ValidateMessageIndex ledger senderKey sessionID eventID index timestamp).1 = true
    ∧ lookupIndex ⟨senderKey, sessionID, index⟩
        (ValidateMessageIndex ledger senderKey sessionID eventID index timestamp).2
      = some ⟨eventID, timestamp⟩ := by
  unfold ValidateMessageIndex
  simp [h, lookupIndex_append, lookupIndex]

/-- On a claimed index `ValidateMessageIndex` compares and leaves the ledger alone. -/
theorem validate_claimed (ledger : Ledger) (senderKey : SenderKey) (sessionID : SessionID)
    (eventID : EventID) (index : Nat) (timestamp : Int) (v : MessageIndexValue)
    (h : lookupIndex ⟨senderKey, sessionID, index⟩ ledger = some v) :
    ValidateMessageIndex ledger senderKey sessionID eventID index timestamp
      = (decide (v.EventID = eventID ∧ v.Timestamp = timestamp), ledger) := by
  unfold ValidateMessageIndex
  simp [h]

/-- When `ValidateMessageIndex` answers false the ledger is unchanged. -/
theorem validate_false_ledger (ledger : Ledger) (senderKey : SenderKey)
    (sessionID : SessionID) (eventID : EventID) (index : Nat) (timestamp : Int)
    (h : (ValidateMessageIndex ledger senderKey sessionID eventID index timestamp).1 = false) :
    (ValidateMessageIndex ledger senderKey sessionID eventID index timestamp).2 = ledger := by
  unfold ValidateMessageIndex at h ⊢
  split <;> simp_all

/-- The ledger after a run of `DecryptMegolmEvent` is the ledger before it, or the ledger
left by one `ValidateMessageIndex` call for the event. -/
theorem decrypt_ledger_cases (mach : OlmMachine) (evt : Event) (w : World) :
    (DecryptMegolmEvent mach evt w).2.ledger = w.ledger
    ∨ ∃ senderKey sessionID index,
        (DecryptMegolmEvent mach evt w).2.ledger
          = (ValidateMessageIndex w.ledger senderKey sessionID evt.ID index evt.Timestamp).2 := by
  unfold DecryptMegolmEvent
  cases evt.Content.Parsed with
  | NotParsed => simp
  | OtherContent kind => simp
  | Encrypted content =>
    simp only [World.record]
    rcases mach.store.GetGroupSession evt.RoomID content.SenderKey content.SessionID
      with ⟨_ | sess, _ | gerr⟩
    · simp
    · simp
    · simp only []
      rcases sess.Decrypt content.MegolmCiphertext with ⟨plaintext, index, _ | derr⟩
      · right
        refine ⟨content.SenderKey, content.SessionID, index, ?_⟩
        simp only []
        rcases mach.Unmarshal plaintext with ⟨_ | megolmEvt, _ | uerr⟩
        · split <;> rfl
        · split <;> rfl
        · simp only []
          rcases (mach.ParseRaw megolmEvt.Content megolmEvt.Type_).2 with _ | perr
          · split <;> rfl
          · simp only []
            split
            · rfl
            · split <;> rfl
        · split <;> rfl
      · simp
    · simp

/-- A recorded claim survives a run of `DecryptMegolmEvent`. -/
theorem decrypt_keeps (mach : OlmMachine) (evt : Event) (w : World) (key : MessageIndexKey)
    (v : MessageIndexValue) (h : lookupIndex key w.ledger = some v) :
    lookupIndex key (DecryptMegolmEvent mach evt w).2.ledger = some v := by
  rcases decrypt_ledger_cases mach evt w with h1 | ⟨a, b, c, h1⟩
  · rw [h1]; exact h
  · rw [h1]; exact validate_keeps w.ledger key v a b evt.ID c evt.Timestamp h

/-- A recorded claim survives any sequence of runs of `DecryptMegolmEvent`. -/
theorem decryptAll_keeps (mach : OlmMachine) (evts : List Event) (w : World)
    (key : MessageIndexKey) (v : MessageIndexValue) (h : lookupIndex key w.ledger = some v) :
    lookupIndex key (decryptAll mach evts w).ledger = some v := by
  induction evts generalizing w with
  | nil => simpa [decryptAll] using h
  | cons evt rest ih => exact ih _ (decrypt_keeps mach evt w key v h)

/-- What `claimedIndex` being defined means. -/
theorem claimedIndex_eq_some (mach : OlmMachine) (evt : Event) (key : MessageIndexKey)
    (h : claimedIndex mach evt = some key) :
    ∃ content sess,
      evt.Content.Parsed = ParsedContent.Encrypted content
      ∧ (mach.store.GetGroupSession evt.RoomID content.SenderKey content.SessionID).2 = none
      ∧ (mach.store.GetGroupSession evt.RoomID content.SenderKey content.SessionID).1 = some sess
      ∧ (sess.Decrypt content.MegolmCiphertext).2.2 = none
      ∧ key = ⟨content.SenderKey, content.SessionID,
          (sess.Decrypt content.MegolmCiphertext).2.1⟩ := by
  unfold claimedIndex at h
  split at h
  · rename_i content hp
    split at h
    · rename_i sess hg2 hg1
      split at h
      · rename_i hd
        exact ⟨content, sess, hp, hg2, hg1, hd, by simpa using h.symm⟩
      · simp at h
    · simp at h
  · simp at h

/-- Once the session is found and `Decrypt` has succeeded, a false answer of
`ValidateMessageIndex` ends the run with `DuplicateMessageIndex`. -/
theorem decrypt_duplicate (mach : OlmMachine) (evt : Event) (w : World)
    (key : MessageIndexKey) (h : claimedIndex mach evt = some key)
    (hv : (ValidateMessageIndex w.ledger key.SenderKey key.SessionID evt.ID key.Index
      evt.Timestamp).1 = false) :
    (DecryptMegolmEvent mach evt w).1
      = Outcome.returned none (some Error.DuplicateMessageIndex) := by
  obtain ⟨content, sess, hp, hg2, hg1, hd, rfl⟩ := claimedIndex_eq_some mach evt key h
  simp only at hv
  unfold DecryptMegolmEvent
  simp [hp, hg2, hg1, hd, hv, World.record]

/-- Once the session is found and `Decrypt` has succeeded, a true answer of
`ValidateMessageIndex` on parseable plaintext ends the run with an event and no error,
and the ledger is the one left by `ValidateMessageIndex`. -/
theorem decrypt_success (mach : OlmMachine) (evt : Event) (w : World)
    (key : MessageIndexKey) (h : claimedIndex mach evt = some key)
    (hparse : plaintextParses mach evt = true)
    (hv : (ValidateMessageIndex w.ledger key.SenderKey key.SessionID evt.ID key.Index
      evt.Timestamp).1 = true) :
    (∃ out, (DecryptMegolmEvent mach evt w).1 = Outcome.returned (some out) none)
    ∧ (DecryptMegolmEvent mach evt w).2.ledger
      = (ValidateMessageIndex w.ledger key.SenderKey key.SessionID evt.ID key.Index
          evt.Timestamp).2 := by
  obtain ⟨content, sess, hp, hg2, hg1, hd, rfl⟩ := claimedIndex_eq_some mach evt key h
  simp only at hv
  unfold plaintextParses at hparse
  simp only [hp, hg1] at hparse
  unfold DecryptMegolmEvent
  simp only [hp, hg2, hg1, hd, hv, World.record]
  split at hparse
  · rename_i megolmEvt hu2 hu1
    simp only [hu2, hu1]
    split at hparse
    · rename_i hpr
      simp [hpr]
    · rename_i err hpr
      simp [hpr, hparse]
  · simp at hparse

/-- The event returned by a run of `DecryptMegolmEvent`: the session was found, the
plaintext unmarshalled to a `MegolmEvent`, and the event carries the type and parsed
content of that `MegolmEvent` and every other field of the outer envelope. -/
theorem decrypt_event_shape (mach : OlmMachine) (evt : Event) (w : World) (out : Event)
    (err : Option Error)
    (h : (DecryptMegolmEvent mach evt w).1 = Outcome.returned (some out) err) :
    ∃ content sess megolmEvt,
      evt.Content.Parsed = ParsedContent.Encrypted content
      ∧ (mach.store.GetGroupSession evt.RoomID content.SenderKey content.SessionID).1
          = some sess
      ∧ (mach.Unmarshal (sess.Decrypt content.MegolmCiphertext).1).1 = some megolmEvt
      ∧ out = { Sender := evt.Sender, Type_ := megolmEvt.Type_, Timestamp := evt.Timestamp,
                ID := evt.ID, RoomID := evt.RoomID,
                Content := (mach.ParseRaw megolmEvt.Content megolmEvt.Type_).1,
                Unsigned := evt.Unsigned } := by
  unfold DecryptMegolmEvent at h
  cases hp : evt.Content.Parsed with
  | NotParsed => simp [hp] at h
  | OtherContent kind => simp [hp] at h
  | Encrypted content =>
    simp only [hp, World.record] at h
    refine ⟨content, ?_⟩
    rcases hg : mach.store.GetGroupSession evt.RoomID content.SenderKey content.SessionID
      with ⟨_ | sess, _ | gerr⟩
    · simp [hg] at h
    · simp [hg] at h
    · simp only [hg] at h
      refine ⟨sess, ?_⟩
      rcases hd : sess.Decrypt content.MegolmCiphertext with ⟨plaintext, index, _ | derr⟩
      · simp only [hd] at h
        rcases hu : mach.Unmarshal plaintext with ⟨_ | megolmEvt, _ | uerr⟩
        · simp only [hu] at h
          split at h <;> simp at h
        · simp only [hu] at h
          split at h <;> simp at h
        · simp only [hu] at h
          refine ⟨megolmEvt, rfl, rfl, rfl, ?_⟩
          rcases hpr : (mach.ParseRaw megolmEvt.Content megolmEvt.Type_).2 with _ | perr
          · simp only [hpr] at h
            split at h
            · simp at h
            · simp only [Outcome.returned.injEq, Option.some.injEq] at h
              exact h.1.symm
          · simp only [hpr] at h
            split at h
            · simp at h
            · split at h
              · simp at h
              · simp only [Outcome.returned.injEq, Option.some.injEq] at h
                exact h.1.symm
        · simp only [hu] at h
          split at h <;> simp at h
      · simp [hd] at h
    · simp [hg] at h

/-- C5: replay protection over the insert-if-absent-else-compare ledger. For an envelope
whose session is found, whose ciphertext decrypts to a message index not yet claimed in
the ledger and whose plaintext parses, `DecryptMegolmEvent` succeeds; after it and any
further runs, an envelope claiming the same (sender key, session ID, index) under a
different event ID gets `DuplicateMessageIndex`, and an envelope claiming it with the
same event ID and timestamp (and parseable plaintext) succeeds again. -/
theorem DecryptMegolmEvent_replay (mach : OlmMachine) (w : World) (evt : Event)
    (key : MessageIndexKey) (between : List Event)
    (hclaim : claimedIndex mach evt = some key)
    (hparse : plaintextParses mach evt = true)
    (hfresh : lookupIndex key w.ledger = none) :
    (∃ out, (DecryptMegolmEvent mach evt w).1 = Outcome.returned (some out) none)
    ∧ (∀ evt2, claimedIndex mach evt2 = some key → evt2.ID ≠ evt.ID →
        (DecryptMegolmEvent mach evt2
            (decryptAll mach between (DecryptMegolmEvent mach evt w).2)).1
          = Outcome.returned none (some Error.DuplicateMessageIndex))
    ∧ (∀ evt3, claimedIndex mach evt3 = some key → plaintextParses mach evt3 = true →
        evt3.ID = evt.ID → evt3.Timestamp = evt.Timestamp →
        ∃ out, (DecryptMegolmEvent mach evt3
            (decryptAll mach between (DecryptMegolmEvent mach evt w).2)).1
          = Outcome.returned (some out) none) := by
  obtain ⟨hv, hrec⟩ :=
    validate_fresh w.ledger key.SenderKey key.SessionID evt.ID key.Index evt.Timestamp hfresh
  obtain ⟨hout, hledger⟩ := decrypt_success mach evt w key hclaim hparse hv
  have hlater : lookupIndex key
      (decryptAll mach between (DecryptMegolmEvent mach evt w).2).ledger
      = some ⟨evt.ID, evt.Timestamp⟩ :=
    decryptAll_keeps mach between _ key _ (by rw [hledger]; exact hrec)
  refine ⟨hout, ?_, ?_⟩
  · intro evt2 h2 hne
    apply decrypt_duplicate mach evt2 _ key h2
    rw [validate_claimed _ _ _ _ _ _ _ hlater]
    simp [Ne.symm hne]
  · intro evt3 h3 hp3 hid hts
    apply (decrypt_success mach evt3 _ key h3 hp3 _).1
    rw [validate_claimed _ _ _ _ _ _ _ hlater]
    simp [hid, hts]

/-- Instance of C5: `$e1` claims index 0 first and succeeds; after an unrelated run,
`$e2` claiming index 0 is a duplicate and a retry of `$e1` succeeds. -/
theorem DecryptMegolmEvent_replay_witness :
    (claimedIndex demoMachine (envelope "$e1" 1000 "ct-msg") = some ⟨"SK", "sid", 0⟩
      ∧ plaintextParses demoMachine (envelope "$e1" 1000 "ct-msg") = true
      ∧ lookupIndex ⟨"SK", "sid", 0⟩ emptyWorld.ledger = none)
    ∧ (∃ out, (DecryptMegolmEvent demoMachine (envelope "$e1" 1000 "ct-msg") emptyWorld).1
        = Outcome.returned (some out) none)
    ∧ (DecryptMegolmEvent demoMachine (envelope "$e2" 2000 "ct-evil")
          (decryptAll demoMachine [envelope "$e9" 5 "ct-junk"]
            (DecryptMegolmEvent demoMachine (envelope "$e1" 1000 "ct-msg") emptyWorld).2)).1
        = Outcome.returned none (some Error.DuplicateMessageIndex)
    ∧ (∃ out, (DecryptMegolmEvent demoMachine (envelope "$e1" 1000 "ct-msg")
          (decryptAll demoMachine [envelope "$e9" 5 "ct-junk"]
            (DecryptMegolmEvent demoMachine (envelope "$e1" 1000 "ct-msg") emptyWorld).2)).1
        = Outcome.returned (some out) none) :=
  ⟨⟨by decide, by decide, by decide⟩,
   (DecryptMegolmEvent_replay demoMachine emptyWorld (envelope "$e1" 1000 "ct-msg")
      ⟨"SK", "sid", 0⟩ [envelope "$e9" 5 "ct-junk"] (by decide) (by decide) (by decide)).1,
   (DecryptMegolmEvent_replay demoMachine emptyWorld (envelope "$e1" 1000 "ct-msg")
      ⟨"SK", "sid", 0⟩ [envelope "$e9" 5 "ct-junk"] (by decide) (by decide) (by decide)).2.1
      (envelope "$e2" 2000 "ct-evil") (by decide) (by decide),
   (DecryptMegolmEvent_replay demoMachine emptyWorld (envelope "$e1" 1000 "ct-msg")
      ⟨"SK", "sid", 0⟩ [envelope "$e9" 5 "ct-junk"] (by decide) (by decide) (by decide)).2.2
      (envelope "$e1" 1000 "ct-msg") (by decide) (by decide) rfl rfl⟩

/-- C6: metadata integrity. Whenever `DecryptMegolmEvent` succeeds, the returned event
carries the Sender, Timestamp, ID, RoomID and Unsigned of the outer envelope; its Type
and Content are those of the unmarshalled plaintext; and two successful runs on the same
envelope, over any two machines and worlds (so with any two plaintexts), agree on those
five fields. -/
theorem DecryptMegolmEvent_metadata (mach mach' : OlmMachine) (evt : Event) (w w' : World)
    (out out' : Event)
    (h : (DecryptMegolmEvent mach evt w).1 = Outcome.returned (some out) none)
    (h' : (DecryptMegolmEvent mach' evt w').1 = Outcome.returned (some out') none) :
    (out.Sender = evt.Sender ∧ out.Timestamp = evt.Timestamp ∧ out.ID = evt.ID
      ∧ out.RoomID = evt.RoomID ∧ out.Unsigned = evt.Unsigned)
    ∧ (∃ content sess megolmEvt,
        evt.Content.Parsed = ParsedContent.Encrypted content
        ∧ (mach.store.GetGroupSession evt.RoomID content.SenderKey content.SessionID).1
            = some sess
        ∧ (mach.Unmarshal (sess.Decrypt content.MegolmCiphertext).1).1 = some megolmEvt
        ∧ out.Type_ = megolmEvt.Type_
        ∧ out.Content = (mach.ParseRaw megolmEvt.Content megolmEvt.Type_).1)
    ∧ (out'.Sender = out.Sender ∧ out'.Timestamp = out.Timestamp ∧ out'.ID = out.ID
      ∧ out'.RoomID = out.RoomID ∧ out'.Unsigned = out.Unsigned) := by
  obtain ⟨content, sess, megolmEvt, hp, hg, hu, rfl⟩ := decrypt_event_shape mach evt w out _ h
  obtain ⟨content', sess', megolmEvt', -, -, -, rfl⟩ :=
    decrypt_event_shape mach' evt w' out' _ h'
  exact ⟨⟨rfl, rfl, rfl, rfl, rfl⟩, ⟨content, sess, megolmEvt, hp, hg, hu, rfl, rfl⟩,
    ⟨rfl, rfl, rfl, rfl, rfl⟩⟩

/-- Instance of C6: the same envelope decrypted over two sessions, one of which yields a
plaintext that names another sender: the returned events differ in content and agree
on sender, timestamp, event ID, room ID and unsigned section. -/
theorem DecryptMegolmEvent_metadata_witness :
    ((DecryptMegolmEvent demoMachine (envelope "$e1" 1000 "ct-msg") emptyWorld).1
        = Outcome.returned (some ⟨"@alice", "m.room.message", 1000, "$e1", "!room",
            ⟨"body: hi", ParsedContent.OtherContent "m.room.message"⟩, "age: 5"⟩) none
      ∧ (DecryptMegolmEvent forgedMachine (envelope "$e1" 1000 "ct-msg") emptyWorld).1
        = Outcome.returned (some ⟨"@alice", "m.room.message", 1000, "$e1", "!room",
            ⟨"body: hi, sender: @mallory", ParsedContent.OtherContent "m.room.message"⟩,
            "age: 5"⟩) none)
    ∧ (("@alice" : UserID) = (envelope "$e1" 1000 "ct-msg").Sender
      ∧ (1000 : Int) = (envelope "$e1" 1000 "ct-msg").Timestamp
      ∧ ("$e1" : EventID) = (envelope "$e1" 1000 "ct-msg").ID
      ∧ ("!room" : RoomID) = (envelope "$e1" 1000 "ct-msg").RoomID
      ∧ "age: 5" = (envelope "$e1" 1000 "ct-msg").Unsigned) :=
  ⟨⟨by decide, by decide⟩,
   (DecryptMegolmEvent_metadata demoMachine forgedMachine (envelope "$e1" 1000 "ct-msg")
      emptyWorld emptyWorld
      ⟨"@alice", "m.room.message", 1000, "$e1", "!room",
        ⟨"body: hi", ParsedContent.OtherContent "m.room.message"⟩, "age: 5"⟩
      ⟨"@alice", "m.room.message", 1000, "$e1", "!room",
        ⟨"body: hi, sender: @mallory", ParsedContent.OtherContent "m.room.message"⟩, "age: 5"⟩
      (by decide) (by decide)).1⟩

/-- The calls of a run on an envelope whose session is found and whose `Decrypt`
succeeds: the session lookup, `Decrypt`, then `ValidateMessageIndex`. -/
theorem newCalls_of_claimed (mach : OlmMachine) (evt : Event) (w : World)
    (key : MessageIndexKey) (h : claimedIndex mach evt = some key) :
    ∃ content, evt.Content.Parsed = ParsedContent.Encrypted content
      ∧ newCalls mach evt w
        = [Call.GetGroupSession evt.RoomID content.SenderKey content.SessionID,
           Call.Decrypt content.MegolmCiphertext,
           Call.ValidateMessageIndex key.SenderKey key.SessionID evt.ID key.Index
             evt.Timestamp] := by
  obtain ⟨content, sess, hp, hg2, hg1, hd, rfl⟩ := claimedIndex_eq_some mach evt key h
  refine ⟨content, hp, ?_⟩
  unfold newCalls DecryptMegolmEvent
  simp only [hp, hg2, hg1, hd, World.record]
  repeat' split
  all_goals simp

/-- The calls of a run on an envelope whose session is not found or whose `Decrypt` fails
hold no `ValidateMessageIndex` call, and the ledger is unchanged. -/
theorem newCalls_of_unclaimed (mach : OlmMachine) (evt : Event) (w : World)
    (h : claimedIndex mach evt = none) :
    (∀ c ∈ newCalls mach evt w, Call.isValidate c = false)
    ∧ (DecryptMegolmEvent mach evt w).2.ledger = w.ledger := by
  unfold claimedIndex at h
  unfold newCalls DecryptMegolmEvent
  cases hp : evt.Content.Parsed with
  | NotParsed => simp
  | OtherContent kind => simp
  | Encrypted content =>
    simp only [hp, World.record] at h ⊢
    rcases hg : mach.store.GetGroupSession evt.RoomID content.SenderKey content.SessionID
      with ⟨_ | sess, _ | gerr⟩
    · simp [Call.isValidate]
    · simp [Call.isValidate]
    · simp only [hg] at h ⊢
      rcases hd : sess.Decrypt content.MegolmCiphertext with ⟨plaintext, index, _ | derr⟩
      · simp [hd] at h
      · simp [Call.isValidate]
    · simp [Call.isValidate]

/-- C7: `ValidateMessageIndex` is consulted only after the group session was found and
`Decrypt` succeeded (otherwise no such call is logged; when it is, it follows the
session lookup and `Decrypt`). When `Decrypt` fails the result is the wrapped "failed to
decrypt megolm event" error and `ValidateMessageIndex` is not called. When `Decrypt`
succeeds and `ValidateMessageIndex` answers false the result is `DuplicateMessageIndex`
with no event, whatever the plaintext is. -/
theorem DecryptMegolmEvent_validate_gate (mach : OlmMachine) (evt : Event) (w : World) :
    (claimedIndex mach evt = none → ∀ c ∈ newCalls mach evt w, Call.isValidate c = false)
    ∧ (∀ key, claimedIndex mach evt = some key →
        ∃ content, evt.Content.Parsed = ParsedContent.Encrypted content
          ∧ newCalls mach evt w
            = [Call.GetGroupSession evt.RoomID content.SenderKey content.SessionID,
               Call.Decrypt content.MegolmCiphertext,
               Call.ValidateMessageIndex key.SenderKey key.SessionID evt.ID key.Index
                 evt.Timestamp])
    ∧ (∀ content sess err, evt.Content.Parsed = ParsedContent.Encrypted content →
        mach.store.GetGroupSession evt.RoomID content.SenderKey content.SessionID
          = (some sess, none) →
        (sess.Decrypt content.MegolmCiphertext).2.2 = some err →
        (DecryptMegolmEvent mach evt w).1
            = Outcome.returned none (some (Error.Wrap err "failed to decrypt megolm event"))
          ∧ newCalls mach evt w
            = [Call.GetGroupSession evt.RoomID content.SenderKey content.SessionID,
               Call.Decrypt content.MegolmCiphertext])
    ∧ (∀ key, claimedIndex mach evt = some key →
        (ValidateMessageIndex w.ledger key.SenderKey key.SessionID evt.ID key.Index
          evt.Timestamp).1 = false →
        (DecryptMegolmEvent mach evt w).1
          = Outcome.returned none (some Error.DuplicateMessageIndex)) := by
  refine ⟨fun h => (newCalls_of_unclaimed mach evt w h).1,
    fun key h => newCalls_of_claimed mach evt w key h, ?_,
    fun key h hv => decrypt_duplicate mach evt w key h hv⟩
  intro content sess err hp hg hd
  unfold newCalls DecryptMegolmEvent
  simp [hp, hg, hd, World.record]

/-- Instances of C7: a ciphertext the session rejects gives the wrapped decryption
error after the session lookup and `Decrypt` only; an envelope whose plaintext is not
JSON gives `DuplicateMessageIndex` when its index is already claimed by another event,
and the parse error when the index is free. -/
theorem DecryptMegolmEvent_validate_gate_witness :
    ((DecryptMegolmEvent demoMachine (envelope "$e3" 7 "ct-other") emptyWorld).1
        = Outcome.returned none
            (some (Error.Wrap (Error.External "bad message MAC")
              "failed to decrypt megolm event"))
      ∧ newCalls demoMachine (envelope "$e3" 7 "ct-other") emptyWorld
        = [Call.GetGroupSession "!room" "SK" "sid", Call.Decrypt "ct-other"])
    ∧ (DecryptMegolmEvent demoMachine (envelope "$e9" 5 "ct-junk")
        ⟨[], [(⟨"SK", "sid", 1⟩, ⟨"$e0", 1⟩)]⟩).1
      = Outcome.returned none (some Error.DuplicateMessageIndex)
    ∧ (DecryptMegolmEvent demoMachine (envelope "$e9" 5 "ct-junk") emptyWorld).1
      = Outcome.returned none
          (some (Error.Wrap (Error.External "invalid character")
            "failed to parse megolm payload")) :=
  ⟨(DecryptMegolmEvent_validate_gate demoMachine (envelope "$e3" 7 "ct-other")
      emptyWorld).2.2.1 ⟨"SK", "sid", "ct-other"⟩ demoSession
        (Error.External "bad message MAC") rfl rfl (by decide),
   (DecryptMegolmEvent_validate_gate demoMachine (envelope "$e9" 5 "ct-junk")
      ⟨[], [(⟨"SK", "sid", 1⟩, ⟨"$e0", 1⟩)]⟩).2.2.2 ⟨"SK", "sid", 1⟩ (by decide) (by decide),
   by decide⟩

/-- C8, as stated, fails: an envelope whose ciphertext decrypts at a free index to
plaintext that is not JSON makes `DecryptMegolmEvent` return the wrapped payload-parse
error, and the ledger has recorded the claim of the event on the index. -/
theorem DecryptMegolmEvent_parse_failure_advances_ledger :
    (DecryptMegolmEvent demoMachine (envelope "$e9" 5 "ct-junk") emptyWorld).1
      = Outcome.returned none
          (some (Error.Wrap (Error.External "invalid character")
            "failed to parse megolm payload"))
    ∧ (DecryptMegolmEvent demoMachine (envelope "$e9" 5 "ct-junk") emptyWorld).2.ledger
      = [(⟨"SK", "sid", 1⟩, ⟨"$e9", 5⟩)]
    ∧ (DecryptMegolmEvent demoMachine (envelope "$e9" 5 "ct-junk") emptyWorld).2.ledger
      ≠ emptyWorld.ledger := by
  decide

/-- C8, amended: when `DecryptMegolmEvent` returns an error that is not one of its two
wrapped parse failures (so: incorrect content type, wrapped session-store error, no
session, wrapped decryption failure, duplicate index), the ledger after the call is the
ledger before it; when it returns a wrapped payload or content parse failure, the
session was found, `Decrypt` succeeded, `ValidateMessageIndex` answered true, and the
ledger is the one that call left. -/
theorem DecryptMegolmEvent_error_ledger (mach : OlmMachine) (evt : Event) (w : World)
    (out : Option Event) (e : Error)
    (h : (DecryptMegolmEvent mach evt w).1 = Outcome.returned out (some e)) :
    (isParseFailure e = false → (DecryptMegolmEvent mach evt w).2.ledger = w.ledger)
    ∧ (isParseFailure e = true →
        ∃ key, claimedIndex mach evt = some key
          ∧ (ValidateMessageIndex w.ledger key.SenderKey key.SessionID evt.ID key.Index
              evt.Timestamp).1 = true
          ∧ (DecryptMegolmEvent mach evt w).2.ledger
            = (ValidateMessageIndex w.ledger key.SenderKey key.SessionID evt.ID key.Index
                evt.Timestamp).2) := by
  cases hc : claimedIndex mach evt with
  | none =>
    refine ⟨fun _ => (newCalls_of_unclaimed mach evt w hc).2, fun hpf => ?_⟩
    exfalso
    unfold claimedIndex at hc
    unfold DecryptMegolmEvent at h
    cases hp : evt.Content.Parsed with
    | NotParsed =>
      simp only [hp, Outcome.returned.injEq, Option.some.injEq] at h
      rw [← h.2] at hpf
      simp [isParseFailure] at hpf
    | OtherContent kind =>
      simp only [hp, Outcome.returned.injEq, Option.some.injEq] at h
      rw [← h.2] at hpf
      simp [isParseFailure] at hpf
    | Encrypted content =>
      simp only [hp, World.record] at h hc
      rcases hg : mach.store.GetGroupSession evt.RoomID content.SenderKey content.SessionID
        with ⟨_ | sess, _ | gerr⟩
      · simp only [hg, Outcome.returned.injEq, Option.some.injEq] at h
        rw [← h.2] at hpf
        simp [isParseFailure] at hpf
      · simp only [hg, Outcome.returned.injEq, Option.some.injEq] at h
        rw [← h.2] at hpf
        simp [isParseFailure] at hpf
      · simp only [hg] at h hc
        rcases hd : sess.Decrypt content.MegolmCiphertext with ⟨plaintext, index, _ | derr⟩
        · simp [hd] at hc
        · simp only [hd, Outcome.returned.injEq, Option.some.injEq] at h
          rw [← h.2] at hpf
          simp [isParseFailure] at hpf
      · simp only [hg, Outcome.returned.injEq, Option.some.injEq] at h
        rw [← h.2] at hpf
        simp [isParseFailure] at hpf
  | some key =>
    cases hv : (ValidateMessageIndex w.ledger key.SenderKey key.SessionID evt.ID key.Index
        evt.Timestamp).1 with
    | false =>
      have hdup := decrypt_duplicate mach evt w key hc hv
      rw [hdup] at h
      simp only [Outcome.returned.injEq, Option.some.injEq] at h
      obtain ⟨content, sess, hp, hg2, hg1, hd, rfl⟩ := claimedIndex_eq_some mach evt key hc
      simp only at hv
      have hl := validate_false_ledger _ _ _ _ _ _ hv
      refine ⟨fun _ => ?_, fun hpf => ?_⟩
      · unfold DecryptMegolmEvent
        simp [hp, hg2, hg1, hd, hv, hl, World.record]
      · rw [← h.2] at hpf
        simp [isParseFailure] at hpf
    | true =>
      obtain ⟨content, sess, hp, hg2, hg1, hd, rfl⟩ := claimedIndex_eq_some mach evt key hc
      simp only at hv
      have hledger : (DecryptMegolmEvent mach evt w).2.ledger
          = (ValidateMessageIndex w.ledger content.SenderKey content.SessionID evt.ID
              (sess.Decrypt content.MegolmCiphertext).2.1 evt.Timestamp).2 := by
        unfold DecryptMegolmEvent
        simp only [hp, hg2, hg1, hd, hv, World.record]
        repeat' split
        all_goals simp
      refine ⟨fun hnp => ?_, fun _ => ⟨_, rfl, hv, hledger⟩⟩
      exfalso
      unfold DecryptMegolmEvent at h
      simp only [hp, hg2, hg1, hd, hv, World.record] at h
      rcases hu : mach.Unmarshal (sess.Decrypt content.MegolmCiphertext).1
        with ⟨_ | megolmEvt, _ | uerr⟩
      · simp [hu] at h
      · simp only [hu, Bool.not_true, Bool.false_eq_true, if_false, Outcome.returned.injEq,
          Option.some.injEq] at h
        rw [← h.2] at hnp
        simp [isParseFailure] at hnp
      · simp only [hu, Bool.not_true, Bool.false_eq_true, if_false] at h
        rcases hpr : (mach.ParseRaw megolmEvt.Content megolmEvt.Type_).2 with _ | perr
        · simp [hpr] at h
        · simp only [hpr] at h
          split at h
          · simp only [Outcome.returned.injEq, Option.some.injEq] at h
            rw [← h.2] at hnp
            simp [isParseFailure] at hnp
          · simp at h
      · simp only [hu, Bool.not_true, Bool.false_eq_true, if_false, Outcome.returned.injEq,
          Option.some.injEq] at h
        rw [← h.2] at hnp
        simp [isParseFailure] at hnp

/-- Instances of amended C8: a duplicate claim leaves the ledger as it was; a payload
parse failure leaves the ledger with the claim recorded by `ValidateMessageIndex`. -/
theorem DecryptMegolmEvent_error_ledger_witness :
    ((DecryptMegolmEvent demoMachine (envelope "$e9" 5 "ct-junk")
          ⟨[], [(⟨"SK", "sid", 1⟩, ⟨"$e0", 1⟩)]⟩).1
        = Outcome.returned none (some Error.DuplicateMessageIndex)
      ∧ (DecryptMegolmEvent demoMachine (envelope "$e9" 5 "ct-junk")
          ⟨[], [(⟨"SK", "sid", 1⟩, ⟨"$e0", 1⟩)]⟩).2.ledger
        = [(⟨"SK", "sid", 1⟩, ⟨"$e0", 1⟩)])
    ∧ (∃ key, claimedIndex demoMachine (envelope "$e9" 5 "ct-junk") = some key
        ∧ (ValidateMessageIndex emptyWorld.ledger key.SenderKey key.SessionID "$e9"
            key.Index 5).1 = true
        ∧ (DecryptMegolmEvent demoMachine (envelope "$e9" 5 "ct-junk") emptyWorld).2.ledger
          = (ValidateMessageIndex emptyWorld.ledger key.SenderKey key.SessionID "$e9"
              key.Index 5).2) :=
  ⟨⟨by decide,
    (DecryptMegolmEvent_error_ledger demoMachine (envelope "$e9" 5 "ct-junk")
      ⟨[], [(⟨"SK", "sid", 1⟩, ⟨"$e0", 1⟩)]⟩ none Error.DuplicateMessageIndex
      (by decide)).1 (by decide)⟩,
   (DecryptMegolmEvent_error_ledger demoMachine (envelope "$e9" 5 "ct-junk") emptyWorld none
      (Error.Wrap (Error.External "invalid character") "failed to parse megolm payload")
      (by decide)).2 (by decide)⟩

/-! ## Further theorems on the trust resolver -/

/-- For the local account, `IsUserTrusted` answers whether the own keys loaded, after
the own-key lookup only. -/
theorem isUserTrusted_self (mach : OlmMachine) (userID : UserID) (w : World)
    (h : userID = mach.Client.UserID) :
    IsUserTrusted mach userID w
      = (mach.GetOwnCrossSigningPublicKeys.isSome,
          w.record Call.GetOwnCrossSigningPublicKeys) := by
  unfold IsUserTrusted
  cases mach.GetOwnCrossSigningPublicKeys with
  | none => rfl
  | some cs => simp [h]

/-- Without own keys, `IsUserTrusted` answers false after the own-key lookup only. -/
theorem isUserTrusted_no_anchor (mach : OlmMachine) (userID : UserID) (w : World)
    (h : mach.GetOwnCrossSigningPublicKeys = none) :
    IsUserTrusted mach userID w = (false, w.record Call.GetOwnCrossSigningPublicKeys) := by
  unfold IsUserTrusted
  simp [h]

/-- `ResolveTrust` past its early return, in terms of the two predicates it calls. -/
theorem resolveTrust_nonterminal (mach : OlmMachine) (device : DeviceIdentity) (w : World)
    (h : device.Trust ≠ TrustState.TrustStateVerified
      ∧ device.Trust ≠ TrustState.TrustStateBlacklisted) :
    ResolveTrust mach device w
      = if (IsKeyCrossSigned mach device.UserID device.SigningKey w).1 then
          if (IsUserTrusted mach device.UserID
              (IsKeyCrossSigned mach device.UserID device.SigningKey w).2).1 then
            (TrustState.TrustStateCrossSignedTrusted,
              (IsUserTrusted mach device.UserID
                (IsKeyCrossSigned mach device.UserID device.SigningKey w).2).2)
          else
            (TrustState.TrustStateCrossSigned,
              (IsUserTrusted mach device.UserID
                (IsKeyCrossSigned mach device.UserID device.SigningKey w).2).2)
        else (TrustState.TrustStateUnset,
          (IsKeyCrossSigned mach device.UserID device.SigningKey w).2) := by
  unfold ResolveTrust
  rw [if_neg (by simp [h.1, h.2])]

/-- C11: `IsUserTrusted` applied to the own user ID of the local account returns true
exactly when the own cross-signing public keys load; the only operation it performs is
that lookup, and replacing the store by any other store does not change the result. -/
theorem IsUserTrusted_self_anchor (mach : OlmMachine) (w : World) :
    ((IsUserTrusted mach mach.Client.UserID w).1 = true
      ↔ mach.GetOwnCrossSigningPublicKeys ≠ none)
    ∧ (IsUserTrusted mach mach.Client.UserID w).2
      = w.record Call.GetOwnCrossSigningPublicKeys
    ∧ ∀ st : Store,
        IsUserTrusted { mach with CryptoStore := st } mach.Client.UserID w
          = IsUserTrusted mach mach.Client.UserID w := by
  refine ⟨?_, ?_, fun st => ?_⟩
  · rw [isUserTrusted_self mach _ w rfl]
    cases mach.GetOwnCrossSigningPublicKeys <;> simp
  · rw [isUserTrusted_self mach _ w rfl]
  · rw [isUserTrusted_self mach _ w rfl,
      isUserTrusted_self { mach with CryptoStore := st } mach.Client.UserID w rfl]

/-- C12: when the own cross-signing public keys cannot be loaded, `IsUserTrusted`
returns false for every user ID, local or remote, and the only operation logged is the
own-key lookup: no store operation is performed. -/
theorem IsUserTrusted_no_anchor (mach : OlmMachine) (userID : UserID) (w : World)
    (h : mach.GetOwnCrossSigningPublicKeys = none) :
    (IsUserTrusted mach userID w).1 = false
    ∧ (IsUserTrusted mach userID w).2.calls
      = w.calls ++ [Call.GetOwnCrossSigningPublicKeys]
    ∧ (IsUserTrusted mach userID w).2.ledger = w.ledger := by
  rw [isUserTrusted_no_anchor mach userID w h]
  exact ⟨rfl, rfl, rfl⟩

/-- Instances of C12: over the full chain but without own keys, neither the remote user
`@alice` nor the local user `@me` is trusted; with the own keys the remote user is. -/
theorem IsUserTrusted_no_anchor_witness :
    (machineOver (edgeStore fullChain) none).GetOwnCrossSigningPublicKeys = none
    ∧ (IsUserTrusted (machineOver (edgeStore fullChain) none) "@alice" emptyWorld).1 = false
    ∧ (IsUserTrusted (machineOver (edgeStore fullChain) none) "@me" emptyWorld).1 = false
    ∧ (IsUserTrusted (machineOver (edgeStore fullChain) none) "@alice" emptyWorld).2.calls
      = [Call.GetOwnCrossSigningPublicKeys]
    ∧ (IsUserTrusted (machineOver (edgeStore fullChain) (some ownKeys)) "@alice"
        emptyWorld).1 = true :=
  ⟨rfl,
   (IsUserTrusted_no_anchor (machineOver (edgeStore fullChain) none) "@alice" emptyWorld
      rfl).1,
   (IsUserTrusted_no_anchor (machineOver (edgeStore fullChain) none) "@me" emptyWorld
      rfl).1,
   (IsUserTrusted_no_anchor (machineOver (edgeStore fullChain) none) "@alice" emptyWorld
      rfl).2.1,
   by decide⟩

/-- C13: `IsDeviceTrusted` returns true exactly when `ResolveTrust` of the device is
Verified, CrossSigned or CrossSignedTrusted; it returns false when `ResolveTrust` is
Unset, Blacklisted or any other trust-state value; and it performs the operations of
`ResolveTrust` and no other. -/
theorem IsDeviceTrusted_iff_ResolveTrust (mach : OlmMachine) (device : DeviceIdentity)
    (w : World) :
    ((IsDeviceTrusted mach device w).1 = true ↔
      (ResolveTrust mach device w).1 = TrustState.TrustStateVerified
      ∨ (ResolveTrust mach device w).1 = TrustState.TrustStateCrossSigned
      ∨ (ResolveTrust mach device w).1 = TrustState.TrustStateCrossSignedTrusted)
    ∧ ((ResolveTrust mach device w).1 = TrustState.TrustStateUnset
        ∨ (ResolveTrust mach device w).1 = TrustState.TrustStateBlacklisted
        ∨ (∃ code, (ResolveTrust mach device w).1 = TrustState.TrustStateOther code) →
      (IsDeviceTrusted mach device w).1 = false)
    ∧ (IsDeviceTrusted mach device w).2 = (ResolveTrust mach device w).2 := by
  unfold IsDeviceTrusted
  generalize ResolveTrust mach device w = res
  obtain ⟨state, w'⟩ := res
  cases state <;> simp

/-- Instances of C13 on the scenario: the device is trusted over the full chain and
without the signature on the remote master key, untrusted without the signature on the
self-signing key and when blacklisted. -/
theorem IsDeviceTrusted_iff_ResolveTrust_witness :
    (IsDeviceTrusted (machineOver (edgeStore fullChain) (some ownKeys))
        ⟨"@alice", "D", TrustState.TrustStateUnset⟩ emptyWorld).1 = true
    ∧ (IsDeviceTrusted (machineOver (edgeStore [("@alice", "D", "@alice", "S"),
          ("@me", "LU", "@me", "LM"), ("@alice", "M", "@me", "LU")]) (some ownKeys))
        ⟨"@alice", "D", TrustState.TrustStateUnset⟩ emptyWorld).1 = false
    ∧ (IsDeviceTrusted (machineOver (edgeStore fullChain) (some ownKeys))
        ⟨"@alice", "D", TrustState.TrustStateBlacklisted⟩ emptyWorld).1 = false :=
  ⟨(IsDeviceTrusted_iff_ResolveTrust _ _ _).1.2 (Or.inr (Or.inr (by decide))),
   (IsDeviceTrusted_iff_ResolveTrust _ _ _).2.1 (Or.inl (by decide)),
   (IsDeviceTrusted_iff_ResolveTrust _ _ _).2.1 (Or.inr (Or.inl (by decide)))⟩

/-- Over a store in which `IsKeySignedBy` never reports a signature, no key is
cross-signed. -/
theorem isKeyCrossSigned_no_chain (mach : OlmMachine) (userID : UserID)
    (deviceSigningKey : SigningKey) (w : World)
    (h : ∀ u k su sk, (mach.CryptoStore.IsKeySignedBy u k su sk).1 = false) :
    (IsKeyCrossSigned mach userID deviceSigningKey w).1 = false := by
  unfold IsKeyCrossSigned
  simp only [h]
  repeat' split
  all_goals simp

/-- C19: `ResolveTrust` ignores every recorded state other than Verified and
Blacklisted. Two devices with the same user ID and signing key whose recorded states
are both non-terminal resolve alike over the same machine and world; a device whose
recorded state is non-terminal (CrossSignedTrusted and CrossSigned included) resolves to
Unset when the store reports no signature; and `ResolveTrust` returns Verified
(respectively Blacklisted) only if the recorded state is Verified (respectively
Blacklisted). -/
theorem ResolveTrust_ignores_recorded (mach : OlmMachine) (w : World) :
    (∀ d₁ d₂ : DeviceIdentity, d₁.UserID = d₂.UserID → d₁.SigningKey = d₂.SigningKey →
      (d₁.Trust ≠ TrustState.TrustStateVerified
        ∧ d₁.Trust ≠ TrustState.TrustStateBlacklisted) →
      (d₂.Trust ≠ TrustState.TrustStateVerified
        ∧ d₂.Trust ≠ TrustState.TrustStateBlacklisted) →
      ResolveTrust mach d₁ w = ResolveTrust mach d₂ w)
    ∧ (∀ d : DeviceIdentity,
      (d.Trust ≠ TrustState.TrustStateVerified
        ∧ d.Trust ≠ TrustState.TrustStateBlacklisted) →
      (∀ u k su sk, (mach.CryptoStore.IsKeySignedBy u k su sk).1 = false) →
      (ResolveTrust mach d w).1 = TrustState.TrustStateUnset)
    ∧ (∀ d : DeviceIdentity,
      ((ResolveTrust mach d w).1 = TrustState.TrustStateVerified →
        d.Trust = TrustState.TrustStateVerified)
      ∧ ((ResolveTrust mach d w).1 = TrustState.TrustStateBlacklisted →
        d.Trust = TrustState.TrustStateBlacklisted)) := by
  refine ⟨?_, ?_, ?_⟩
  · intro d₁ d₂ hu hk h₁ h₂
    rw [resolveTrust_nonterminal mach d₁ w h₁, resolveTrust_nonterminal mach d₂ w h₂, hu, hk]
  · intro d hd hno
    rw [resolveTrust_nonterminal mach d w hd,
      isKeyCrossSigned_no_chain mach d.UserID d.SigningKey w hno]
    simp
  · intro d
    by_cases hd : d.Trust = TrustState.TrustStateVerified
        ∨ d.Trust = TrustState.TrustStateBlacklisted
    · rw [resolveTrust_shortcut mach d w hd]
      exact ⟨id, id⟩
    · have hd' : d.Trust ≠ TrustState.TrustStateVerified
          ∧ d.Trust ≠ TrustState.TrustStateBlacklisted :=
        ⟨fun h => hd (Or.inl h), fun h => hd (Or.inr h)⟩
      rw [resolveTrust_nonterminal mach d w hd']
      split_ifs <;> simp

/-- Instances of C19: over the store with no signature at all, devices recorded as
CrossSignedTrusted and as CrossSigned resolve to Unset; over the full chain a device
recorded as Unset and one recorded as CrossSigned resolve alike. -/
theorem ResolveTrust_ignores_recorded_witness :
    (ResolveTrust (machineOver (edgeStore []) (some ownKeys))
        ⟨"@alice", "D", TrustState.TrustStateCrossSignedTrusted⟩ emptyWorld).1
      = TrustState.TrustStateUnset
    ∧ (ResolveTrust (machineOver (edgeStore []) (some ownKeys))
        ⟨"@alice", "D", TrustState.TrustStateCrossSigned⟩ emptyWorld).1
      = TrustState.TrustStateUnset
    ∧ ResolveTrust (machineOver (edgeStore fullChain) (some ownKeys))
        ⟨"@alice", "D", TrustState.TrustStateUnset⟩ emptyWorld
      = ResolveTrust (machineOver (edgeStore fullChain) (some ownKeys))
        ⟨"@alice", "D", TrustState.TrustStateCrossSigned⟩ emptyWorld :=
  ⟨(ResolveTrust_ignores_recorded (machineOver (edgeStore []) (some ownKeys))
      emptyWorld).2.1 ⟨"@alice", "D", TrustState.TrustStateCrossSignedTrusted⟩ (by decide)
      (fun _ _ _ _ => by simp [machineOver, edgeStore]),
   (ResolveTrust_ignores_recorded (machineOver (edgeStore []) (some ownKeys))
      emptyWorld).2.1 ⟨"@alice", "D", TrustState.TrustStateCrossSigned⟩ (by decide)
      (fun _ _ _ _ => by simp [machineOver, edgeStore]),
   (ResolveTrust_ignores_recorded (machineOver (edgeStore fullChain) (some ownKeys))
      emptyWorld).1 ⟨"@alice", "D", TrustState.TrustStateUnset⟩
      ⟨"@alice", "D", TrustState.TrustStateCrossSigned⟩ rfl rfl (by decide) (by decide)⟩

/-- C20: for a device of the local account itself whose recorded state is not terminal:
when the own cross-signing public keys load, `ResolveTrust` never returns CrossSigned
and returns CrossSignedTrusted as soon as the device key is cross-signed, whatever
signatures exist on the local user-signing key or on the own master key; when they do
not load, a cross-signed own device resolves to CrossSigned; and CrossSigned is
returned only when the own keys fail to load. -/
theorem ResolveTrust_own_device (mach : OlmMachine) (device : DeviceIdentity) (w : World)
    (hlocal : device.UserID = mach.Client.UserID)
    (hstate : device.Trust ≠ TrustState.TrustStateVerified
      ∧ device.Trust ≠ TrustState.TrustStateBlacklisted) :
    (mach.GetOwnCrossSigningPublicKeys ≠ none →
      (ResolveTrust mach device w).1 ≠ TrustState.TrustStateCrossSigned
      ∧ ((IsKeyCrossSigned mach device.UserID device.SigningKey w).1 = true →
        (ResolveTrust mach device w).1 = TrustState.TrustStateCrossSignedTrusted))
    ∧ (mach.GetOwnCrossSigningPublicKeys = none →
      (IsKeyCrossSigned mach device.UserID device.SigningKey w).1 = true →
      (ResolveTrust mach device w).1 = TrustState.TrustStateCrossSigned)
    ∧ ((ResolveTrust mach device w).1 = TrustState.TrustStateCrossSigned →
      mach.GetOwnCrossSigningPublicKeys = none
      ∧ (IsKeyCrossSigned mach device.UserID device.SigningKey w).1 = true) := by
  rw [resolveTrust_nonterminal mach device w hstate,
    isUserTrusted_self mach device.UserID _ hlocal]
  cases mach.GetOwnCrossSigningPublicKeys <;>
    cases (IsKeyCrossSigned mach device.UserID device.SigningKey w).1 <;> simp

/-- Instances of C20: the local account `@alice` has her device key `D` cross-signed
and no signature on a user-signing key or by one exists in the store: with the own keys
loaded the device resolves to CrossSignedTrusted, without them to CrossSigned. -/
theorem ResolveTrust_own_device_witness :
    (("@alice" : UserID) = (ownDeviceMachine (some ⟨"M", "S", "U"⟩)).Client.UserID
      ∧ userSigningKeyEdge (ownDeviceMachine (some ⟨"M", "S", "U"⟩)).CryptoStore "@alice"
          ⟨"M", "S", "U"⟩ = false
      ∧ masterKeyEdge (ownDeviceMachine (some ⟨"M", "S", "U"⟩)).CryptoStore "@alice" "@alice"
          ⟨"M", "S", "U"⟩ = false)
    ∧ (ResolveTrust (ownDeviceMachine (some ⟨"M", "S", "U"⟩))
        ⟨"@alice", "D", TrustState.TrustStateUnset⟩ emptyWorld).1
      = TrustState.TrustStateCrossSignedTrusted
    ∧ (ResolveTrust (ownDeviceMachine none)
        ⟨"@alice", "D", TrustState.TrustStateUnset⟩ emptyWorld).1
      = TrustState.TrustStateCrossSigned :=
  ⟨⟨by decide, by decide, by decide⟩,
   ((ResolveTrust_own_device (ownDeviceMachine (some ⟨"M", "S", "U"⟩))
      ⟨"@alice", "D", TrustState.TrustStateUnset⟩ emptyWorld (by decide) (by decide)).1
      (by decide)).2 (by decide),
   (ResolveTrust_own_device (ownDeviceMachine none)
      ⟨"@alice", "D", TrustState.TrustStateUnset⟩ emptyWorld (by decide) (by decide)).2.1
      (by decide) (by decide)⟩

/-! ## Further theorems on the decryption pipeline -/

/-- C16: for every envelope whose parsed content is not an encrypted-group-message
content, `DecryptMegolmEvent` returns no event and `IncorrectEncryptedContentType`, and
the world is untouched: no session lookup, no other call, no ledger change. -/
theorem DecryptMegolmEvent_incorrect_content (mach : OlmMachine) (evt : Event) (w : World)
    (h : ∀ content, evt.Content.Parsed ≠ ParsedContent.Encrypted content) :
    DecryptMegolmEvent mach evt w
      = (Outcome.returned none (some Error.IncorrectEncryptedContentType), w) := by
  unfold DecryptMegolmEvent
  cases hp : evt.Content.Parsed with
  | NotParsed => rfl
  | OtherContent kind => rfl
  | Encrypted content => exact absurd hp (h content)

/-- Instance of C16: a plain text message handed to `DecryptMegolmEvent`, in a world
that already holds calls and a ledger entry. -/
theorem DecryptMegolmEvent_incorrect_content_witness :
    (∀ content, plainEnvelope.Content.Parsed ≠ ParsedContent.Encrypted content)
    ∧ DecryptMegolmEvent demoMachine plainEnvelope
        ⟨[Call.GetOwnCrossSigningPublicKeys], [(⟨"SK", "sid", 1⟩, ⟨"$e0", 1⟩)]⟩
      = (Outcome.returned none (some Error.IncorrectEncryptedContentType),
          ⟨[Call.GetOwnCrossSigningPublicKeys], [(⟨"SK", "sid", 1⟩, ⟨"$e0", 1⟩)]⟩) :=
  ⟨fun _ h => by simp [plainEnvelope] at h,
   DecryptMegolmEvent_incorrect_content demoMachine plainEnvelope _
     (fun _ h => by simp [plainEnvelope] at h)⟩

/-- C15: when `GetGroupSession` returns an error, `DecryptMegolmEvent` returns no event
and that error wrapped as "failed to get group session", whether or not a session came
with it, and the only call is the session lookup; when it returns neither error nor
session, the result is no event and `NoSessionFound`, and the only calls are the
session lookup and the wedge check. In both cases neither `Decrypt` nor
`ValidateMessageIndex` is called and the ledger is unchanged. -/
theorem DecryptMegolmEvent_session_lookup (mach : OlmMachine) (evt : Event) (w : World)
    (content : EncryptedEventContent)
    (hp : evt.Content.Parsed = ParsedContent.Encrypted content) :
    (∀ err,
      (mach.store.GetGroupSession evt.RoomID content.SenderKey content.SessionID).2
        = some err →
      DecryptMegolmEvent mach evt w
        = (Outcome.returned none (some (Error.Wrap err "failed to get group session")),
            ⟨w.calls ++ [Call.GetGroupSession evt.RoomID content.SenderKey content.SessionID],
              w.ledger⟩))
    ∧ (mach.store.GetGroupSession evt.RoomID content.SenderKey content.SessionID
        = (none, none) →
      DecryptMegolmEvent mach evt w
        = (Outcome.returned none (some Error.NoSessionFound),
            ⟨w.calls ++ [Call.GetGroupSession evt.RoomID content.SenderKey content.SessionID,
                Call.checkIfWedged evt.ID],
              w.ledger⟩)) := by
  refine ⟨fun err hg => ?_, fun hg => ?_⟩
  · unfold DecryptMegolmEvent
    simp [hp, hg, World.record]
  · unfold DecryptMegolmEvent
    simp [hp, hg, World.record]

/-- Instances of C15: a store error with no session, a store error that comes with a
session, and a lookup that finds nothing. -/
theorem DecryptMegolmEvent_session_lookup_witness :
    (DecryptMegolmEvent (machineOver failingStore none) (envelope "$e1" 1000 "ct-msg")
        emptyWorld
      = (Outcome.returned none
          (some (Error.Wrap (Error.External "db down") "failed to get group session")),
          ⟨[Call.GetGroupSession "!room" "SK" "sid"], []⟩))
    ∧ (DecryptMegolmEvent
        { demoMachine with
          store := { demoStore with
            GetGroupSession := fun _ _ _ => (some demoSession, some (Error.External "stale")) } }
        (envelope "$e1" 1000 "ct-msg") emptyWorld
      = (Outcome.returned none
          (some (Error.Wrap (Error.External "stale") "failed to get group session")),
          ⟨[Call.GetGroupSession "!room" "SK" "sid"], []⟩))
    ∧ (DecryptMegolmEvent demoMachine
        { envelope "$e1" 1000 "ct-msg" with RoomID := "!elsewhere" } emptyWorld
      = (Outcome.returned none (some Error.NoSessionFound),
          ⟨[Call.GetGroupSession "!elsewhere" "SK" "sid", Call.checkIfWedged "$e1"], []⟩)) :=
  ⟨(DecryptMegolmEvent_session_lookup (machineOver failingStore none)
      (envelope "$e1" 1000 "ct-msg") emptyWorld ⟨"SK", "sid", "ct-msg"⟩ rfl).1
      (Error.External "db down") rfl,
   (DecryptMegolmEvent_session_lookup
      { demoMachine with
        store := { demoStore with
          GetGroupSession := fun _ _ _ => (some demoSession, some (Error.External "stale")) } }
      (envelope "$e1" 1000 "ct-msg") emptyWorld ⟨"SK", "sid", "ct-msg"⟩ rfl).1
      (Error.External "stale") rfl,
   (DecryptMegolmEvent_session_lookup demoMachine
      { envelope "$e1" 1000 "ct-msg" with RoomID := "!elsewhere" } emptyWorld
      ⟨"SK", "sid", "ct-msg"⟩ rfl).2 rfl⟩

/-- C14: forward compatibility. When the session is found, `Decrypt` and the index
validation succeed and the plaintext unmarshals to a `MegolmEvent`: if `ParseRaw` fails
with an unsupported-content-type error, `DecryptMegolmEvent` returns, without error, the
event with the inner type and the content as `ParseRaw` left it, which is the
unmarshalled raw content when `ParseRaw` left the content as it was given; if `ParseRaw`
fails with any other error, the result is no event and that error wrapped as "failed to
parse content of megolm payload event". -/
theorem DecryptMegolmEvent_forward_compat (mach : OlmMachine) (evt : Event) (w : World)
    (content : EncryptedEventContent) (sess : InboundGroupSession) (megolmEvt : MegolmEvent)
    (hp : evt.Content.Parsed = ParsedContent.Encrypted content)
    (hg : mach.store.GetGroupSession evt.RoomID content.SenderKey content.SessionID
      = (some sess, none))
    (hd : (sess.Decrypt content.MegolmCiphertext).2.2 = none)
    (hv : (ValidateMessageIndex w.ledger content.SenderKey content.SessionID evt.ID
      (sess.Decrypt content.MegolmCiphertext).2.1 evt.Timestamp).1 = true)
    (hu : mach.Unmarshal (sess.Decrypt content.MegolmCiphertext).1 = (some megolmEvt, none)) :
    (∀ err, (mach.ParseRaw megolmEvt.Content megolmEvt.Type_).2 = some err →
      mach.IsUnsupportedContentType err = true →
      (DecryptMegolmEvent mach evt w).1
          = Outcome.returned
              (some { Sender := evt.Sender, Type_ := megolmEvt.Type_,
                      Timestamp := evt.Timestamp, ID := evt.ID, RoomID := evt.RoomID,
                      Content := (mach.ParseRaw megolmEvt.Content megolmEvt.Type_).1,
                      Unsigned := evt.Unsigned }) none
        ∧ ((mach.ParseRaw megolmEvt.Content megolmEvt.Type_).1 = megolmEvt.Content →
          (DecryptMegolmEvent mach evt w).1
            = Outcome.returned
                (some { Sender := evt.Sender, Type_ := megolmEvt.Type_,
                        Timestamp := evt.Timestamp, ID := evt.ID, RoomID := evt.RoomID,
                        Content := megolmEvt.Content, Unsigned := evt.Unsigned }) none))
    ∧ (∀ err, (mach.ParseRaw megolmEvt.Content megolmEvt.Type_).2 = some err →
      mach.IsUnsupportedContentType err = false →
      (DecryptMegolmEvent mach evt w).1
        = Outcome.returned none
            (some (Error.Wrap err "failed to parse content of megolm payload event"))) := by
  refine ⟨fun err hpr hun => ?_, fun err hpr hun => ?_⟩
  · have hres : (DecryptMegolmEvent mach evt w).1
        = Outcome.returned
            (some { Sender := evt.Sender, Type_ := megolmEvt.Type_,
                    Timestamp := evt.Timestamp, ID := evt.ID, RoomID := evt.RoomID,
                    Content := (mach.ParseRaw megolmEvt.Content megolmEvt.Type_).1,
                    Unsigned := evt.Unsigned }) none := by
      unfold DecryptMegolmEvent
      simp [hp, hg, hd, hv, hu, hpr, hun, World.record]
    refine ⟨hres, fun hraw => ?_⟩
    rw [hres, hraw]
  · unfold DecryptMegolmEvent
    simp [hp, hg, hd, hv, hu, hpr, hun, World.record]

/-- Instances of C14: an event of a type the client does not know decrypts to an event
with that type and the raw, unparsed content; a text message whose content does not
parse gives the wrapped content-parse error. -/
theorem DecryptMegolmEvent_forward_compat_witness :
    (DecryptMegolmEvent forwardMachine (envelope "$f1" 10 "ct-future") emptyWorld).1
      = Outcome.returned
          (some ⟨"@alice", "org.example.future", 10, "$f1", "!room",
            ⟨"level: 3", ParsedContent.NotParsed⟩, "age: 5"⟩) none
    ∧ (DecryptMegolmEvent forwardMachine (envelope "$f2" 11 "ct-broken") emptyWorld).1
      = Outcome.returned none
          (some (Error.Wrap (Error.External "cannot unmarshal number into string")
            "failed to parse content of megolm payload event")) :=
  ⟨((DecryptMegolmEvent_forward_compat forwardMachine (envelope "$f1" 10 "ct-future")
      emptyWorld ⟨"SK", "sid", "ct-future"⟩ forwardSession
      ⟨"org.example.future", ⟨"level: 3", ParsedContent.NotParsed⟩⟩ rfl rfl (by decide)
      (by decide) (by decide)).1 (Error.External "unsupported content type") (by decide)
      (by decide)).2 (by decide),
   (DecryptMegolmEvent_forward_compat forwardMachine (envelope "$f2" 11 "ct-broken")
      emptyWorld ⟨"SK", "sid", "ct-broken"⟩ forwardSession
      ⟨"m.room.message", ⟨"body: 7", ParsedContent.NotParsed⟩⟩ rfl rfl (by decide)
      (by decide) (by decide)).2 (Error.External "cannot unmarshal number into string")
      (by decide) (by decide)⟩

/-- How a run of `DecryptMegolmEvent` can end: it panics, which happens exactly on the
path where `json.Unmarshal` left the `MegolmEvent` pointer nil without an error; or it
returns an event and no error; or it returns no event and one of seven errors. -/
theorem decrypt_outcome_cases (mach : OlmMachine) (evt : Event) (w : World) :
    ((DecryptMegolmEvent mach evt w).1 = Outcome.panicked
      ∧ ∃ content sess, evt.Content.Parsed = ParsedContent.Encrypted content
        ∧ (mach.store.GetGroupSession evt.RoomID content.SenderKey content.SessionID).1
            = some sess
        ∧ mach.Unmarshal (sess.Decrypt content.MegolmCiphertext).1 = (none, none))
    ∨ (∃ out, (DecryptMegolmEvent mach evt w).1 = Outcome.returned (some out) none)
    ∨ (∃ e, (DecryptMegolmEvent mach evt w).1 = Outcome.returned none (some e)
        ∧ (e = Error.IncorrectEncryptedContentType
          ∨ e = Error.NoSessionFound
          ∨ e = Error.DuplicateMessageIndex
          ∨ ∃ cause, e = Error.Wrap cause "failed to get group session"
            ∨ e = Error.Wrap cause "failed to decrypt megolm event"
            ∨ e = Error.Wrap cause "failed to parse megolm payload"
            ∨ e = Error.Wrap cause "failed to parse content of megolm payload event")) := by
  unfold DecryptMegolmEvent
  cases hp : evt.Content.Parsed with
  | NotParsed => simp
  | OtherContent kind => simp
  | Encrypted content =>
    simp only [World.record]
    rcases hg : mach.store.GetGroupSession evt.RoomID content.SenderKey content.SessionID
      with ⟨_ | sess, _ | gerr⟩
    · simp
    · simp
    · simp only []
      rcases hd : sess.Decrypt content.MegolmCiphertext with ⟨plaintext, index, _ | derr⟩
      · simp only []
        rcases hu : mach.Unmarshal plaintext with ⟨_ | megolmEvt, _ | uerr⟩
        · simp only []
          split
          · simp
          · left
            exact ⟨rfl, content, sess, rfl, by rw [hg], by rw [hd]; exact hu⟩
        · split <;> simp
        · simp only []
          rcases hpr : (mach.ParseRaw megolmEvt.Content megolmEvt.Type_).2 with _ | perr
          · split <;> simp
          · simp only []
            split
            · simp
            · split <;> simp
        · split <;> simp
      · simp
    · simp

/-- C18 fails on the code at one input: an envelope whose ciphertext decrypts, at a
free index, to the JSON literal `null`. `json.Unmarshal` then leaves the `MegolmEvent`
pointer nil without an error, and `DecryptMegolmEvent` panics: it returns neither an
event nor an error, after the ledger has recorded the claim of the event. -/
theorem DecryptMegolmEvent_null_payload_panics :
    claimedIndex forwardMachine (envelope "$n1" 12 "ct-null") = some ⟨"SK", "sid", 2⟩
    ∧ forwardMachine.Unmarshal "null" = (none, none)
    ∧ DecryptMegolmEvent forwardMachine (envelope "$n1" 12 "ct-null") emptyWorld
      = (Outcome.panicked,
          ⟨[Call.GetGroupSession "!room" "SK" "sid", Call.Decrypt "ct-null",
              Call.ValidateMessageIndex "SK" "sid" "$n1" 2 12],
            [(⟨"SK", "sid", 2⟩, ⟨"$n1", 12⟩)]⟩)
    ∧ ∀ out err, (DecryptMegolmEvent forwardMachine (envelope "$n1" 12 "ct-null")
        emptyWorld).1 ≠ Outcome.returned out err := by
  refine ⟨by decide, by decide, by decide, fun out err h => ?_⟩
  have hpanic : (DecryptMegolmEvent forwardMachine (envelope "$n1" 12 "ct-null")
      emptyWorld).1 = Outcome.panicked := by decide
  rw [hpanic] at h
  exact Outcome.noConfusion h

end Crypto
